import Mathlib

/-!
# μlogger front end: `uLang`, `uAuth`, `uSelect` and the map view-model

A shallow embedding of the classes `uLang` (js/src/lang.js), `uAuth`
(js/auth.js), `uSelect` (js/src/select.js) and `uListItem`
(js/src/listitem.js), of the JavaScript primitives their methods use, and of
the map view-model as spec.md and js/test/mapviewmodel.test.js describe it,
followed by the properties proved about them.

Modelling conventions.

* The numeric methods of `uLang` are embedded twice: on `JSNumber` (`NaN` or
  an exact rational, with exact products and quotients), for the properties
  that hold whatever the rounding, and on `Float64`, the IEEE-754 doubles of
  JavaScript, where every product and quotient is rounded to the nearest
  double, for the properties that depend on the rounding. The sign of zero
  is not modelled.
* An object is modelled by its property read `obj[name]`, a function from
  property names to values, with `undefined` for a name that the object
  does not define. `JSObject.ofOwn` is the read of an ordinary object, with
  the properties inherited from `Object.prototype`; `JSObject.empty` and the
  fixtures hold own properties only.
* A `throw` is the `error` branch of `Except JSError`.
-/

namespace ULogger

/-! ## JavaScript values -/

/-- A JavaScript number: `NaN` or an exact rational. -/
inductive JSNumber where
  | nan : JSNumber
  | rat (q : ℚ) : JSNumber
  deriving DecidableEq

/-- The values that a property read can give: the primitive values, the
built-in function of a given name (such as `Object.prototype.toString`) and
an ordinary object without properties of its own (such as `Object.prototype`
itself). -/
inductive JSValue where
  | undefined : JSValue
  | null : JSValue
  | bool (b : Bool) : JSValue
  | number (x : JSNumber) : JSValue
  | string (s : String) : JSValue
  | function (name : String) : JSValue
  | object : JSValue
  deriving DecidableEq

/-- What a method throws: a `TypeError` raised by the engine (its message is
implementation-defined), or `new Error(message)` thrown by the program. -/
inductive JSError where
  | typeError : JSError
  | error (message : String) : JSError
  deriving DecidableEq

/-- An object seen through its property read: `obj name` is `obj[name]`. -/
abbrev JSObject := String → JSValue

/-- The object without any property: `{}` as far as its own properties go. -/
def JSObject.empty : JSObject := fun _ => JSValue.undefined

/-- The names of the functions that an ordinary object inherits from
`Object.prototype`. -/
def Object.prototypeFunctions : List String :=
  ["constructor", "__defineGetter__", "__defineSetter__", "hasOwnProperty",
    "__lookupGetter__", "__lookupSetter__", "isPrototypeOf", "propertyIsEnumerable",
    "toString", "valueOf", "toLocaleString"]

/-- The read of a property that an ordinary object does not have itself: one
of the functions of `Object.prototype`, the prototype for `__proto__`, and
`undefined` for any other name. -/
def Object.prototype : JSObject := fun name =>
  if name ∈ Object.prototypeFunctions then JSValue.function name
  else if name = "__proto__" then JSValue.object
  else JSValue.undefined

/-- The read `obj[name]` of an ordinary object, such as an object literal,
whose own properties are `own` (`none` for a name without own property): the
own property when there is one, the inherited one otherwise. -/
def JSObject.ofOwn (own : String → Option JSValue) : JSObject := fun name =>
  match own name with
  | some v => v
  | none => Object.prototype name

namespace JSNumber

/-- The operator `*` on numbers. -/
def mul : JSNumber → JSNumber → JSNumber
  | rat a, rat b => rat (a * b)
  | _, _ => nan

/-- The operator `/` on numbers. A zero divisor (an infinity or `NaN` in
JavaScript) gives `nan`; the program only divides by non-zero literals. -/
def div : JSNumber → JSNumber → JSNumber
  | rat a, rat b => if b = 0 then nan else rat (a / b)
  | _, _ => nan

/-- The operator `%`: the remainder of the truncated division, with the sign
of the dividend. A zero divisor gives `nan`. -/
def rem : JSNumber → JSNumber → JSNumber
  | rat a, rat b =>
    if b = 0 then nan
    else rat (a - b * (if 0 ≤ a / b then ⌊a / b⌋ else ⌈a / b⌉))
  | _, _ => nan

/-- The comparison `a > b`, false when an operand is `NaN`. -/
def gt : JSNumber → JSNumber → Bool
  | rat a, rat b => decide (b < a)
  | _, _ => false

/-- The builtin `Math.floor`. -/
def floor : JSNumber → JSNumber
  | rat a => rat ⌊a⌋
  | nan => nan

/-- The builtin `Math.round`: the nearest integer, a tie going to the larger
one. -/
def round : JSNumber → JSNumber
  | rat a => rat ⌊a + 1 / 2⌋
  | nan => nan

/-- The digits after the decimal point of `r`, for `0 ≤ r < 1`: long division,
stopping when the expansion ends or after `fuel` digits. -/
def fracDigits : ℕ → ℚ → List Char
  | 0, _ => []
  | fuel + 1, r =>
    if r = 0 then []
    else Nat.digitChar ⌊r * 10⌋.toNat :: fracDigits fuel (Int.fract (r * 10))

/-- The conversion of a number to text (`Number::toString`), in plain decimal
notation: sign, integer part and, when the number is not an integer, a point
and the fractional digits (at most 21 of them). The exponent notation that
JavaScript uses from 10^21 on and below 10^-6 is not modelled. -/
def toString : JSNumber → String
  | nan => "NaN"
  | rat q =>
    let digits := fracDigits 21 (Int.fract |q|)
    (if q < 0 then "-" else "") ++ Nat.repr ⌊|q|⌋.toNat ++
      (if digits.isEmpty then "" else "." ++ String.mk digits)

end JSNumber

namespace JSValue

/-- The operator `typeof`. -/
def typeof : JSValue → String
  | undefined => "undefined"
  | null => "object"
  | bool _ => "boolean"
  | number _ => "number"
  | string _ => "string"
  | function _ => "function"
  | object => "object"

/-- The conversion to text of a template literal or of a property key. The
text of a built-in function is implementation-defined; it is given in the
form that V8 prints. -/
def toJSString : JSValue → String
  | undefined => "undefined"
  | null => "null"
  | bool true => "true"
  | bool false => "false"
  | number x => x.toString
  | string s => s
  | function name => "function " ++ name ++ "() \x7b [native code] \x7d"
  | object => "[object Object]"

/-- The conversion to a number of an arithmetic operand. The parsing of a
text as a number is the parameter `stringToNumber`. -/
def toNumber (stringToNumber : String → JSNumber) : JSValue → JSNumber
  | undefined => JSNumber.nan
  | null => JSNumber.rat 0
  | bool true => JSNumber.rat 1
  | bool false => JSNumber.rat 0
  | number x => x
  | string s => stringToNumber s
  | function _ => JSNumber.nan
  | object => JSNumber.nan

end JSValue

/-- The method `String.prototype.slice(start)` with the end omitted: a
negative `start` counts from the end of the text. -/
def jsSlice (t : String) (start : ℤ) : String :=
  let len : ℤ := t.length
  let k : ℤ := if start < 0 then max (len + start) 0 else min start len
  String.mk (t.data.drop k.toNat)

/-! ## The class `uLang` -/

/-- The fields of a `uLang` instance; `config` is `none` when it is `null`. -/
structure uLang where
  strings : JSObject
  config : Option JSObject

namespace uLang

/-- The constructor: `strings = {}`, `config = null`. -/
def new : uLang :=
  { strings := JSObject.empty, config := none }

/-- The method `init(config, data)`; `data` is `none` when the argument is
omitted. -/
def init (self : uLang) (config : Option JSObject) (data : Option JSObject) : uLang :=
  let self := { self with config := config }
  match data with
  | some d => { self with strings := d }
  | none => self

/-- The method `_(name)`. -/
def lookup (self : uLang) (name : JSValue) : Except JSError JSValue :=
  if (self.strings name.toJSString).typeof = "undefined" then
    Except.error (JSError.error "Unknown localized string")
  else
    Except.ok (self.strings name.toJSString)

/-- The method `unit(name)`. Reading a property of a `null` config throws a
`TypeError`. -/
def unit (self : uLang) (name : String) : Except JSError JSValue :=
  match self.config with
  | none => Except.error JSError.typeError
  | some config =>
    let unitName := config name
    if (config name).typeof = "undefined" then
      Except.error (JSError.error "Unknown localized unit")
    else
      self.lookup unitName

/-- The method `getLocaleSpeed(ms, withUnit)`. -/
def getLocaleSpeed (stringToNumber : String → JSNumber) (self : uLang)
    (ms : JSNumber) (withUnit : Bool) : Except JSError JSValue :=
  match self.config with
  | none => Except.error JSError.typeError
  | some config =>
    let value := ((ms.mul ((config "factorSpeed").toNumber stringToNumber)).mul
      (JSNumber.rat 360)).round.div (JSNumber.rat 100)
    if withUnit then do
      let u ← self.unit "unitSpeed"
      pure (JSValue.string (value.toString ++ " " ++ u.toJSString))
    else
      pure (JSValue.number value)

/-- The method `getLocaleDistanceMajor(m, withUnit)`. -/
def getLocaleDistanceMajor (stringToNumber : String → JSNumber) (self : uLang)
    (m : JSNumber) (withUnit : Bool) : Except JSError JSValue :=
  match self.config with
  | none => Except.error JSError.typeError
  | some config =>
    let value := ((m.mul ((config "factorDistanceMajor").toNumber stringToNumber)).div
      (JSNumber.rat 10)).round.div (JSNumber.rat 100)
    if withUnit then do
      let u ← self.unit "unitDistanceMajor"
      pure (JSValue.string (value.toString ++ " " ++ u.toJSString))
    else
      pure (JSValue.number value)

/-- The method `getLocaleDistance(m, withUnit)`. -/
def getLocaleDistance (stringToNumber : String → JSNumber) (self : uLang)
    (m : JSNumber) (withUnit : Bool) : Except JSError JSValue :=
  match self.config with
  | none => Except.error JSError.typeError
  | some config =>
    let value := ((m.mul ((config "factorDistance").toNumber stringToNumber)).mul
      (JSNumber.rat 100)).round.div (JSNumber.rat 100)
    if withUnit then do
      let u ← self.unit "unitDistance"
      pure (JSValue.string (value.toString ++ " " ++ u.toJSString))
    else
      pure (JSValue.number value)

/-- The method `getLocaleAltitude(m, withUnit)`. -/
def getLocaleAltitude (stringToNumber : String → JSNumber) (self : uLang)
    (m : JSNumber) (withUnit : Bool) : Except JSError JSValue :=
  self.getLocaleDistance stringToNumber m withUnit

/-- The method `getLocaleAccuracy(m, withUnit)`. -/
def getLocaleAccuracy (stringToNumber : String → JSNumber) (self : uLang)
    (m : JSNumber) (withUnit : Bool) : Except JSError JSValue :=
  self.getLocaleDistance stringToNumber m withUnit

/-- The padding expression of `getLocaleDuration`, `00` followed by the text of
the number and cut by `slice(-2)` to its last two characters. -/
def pad2 (x : JSNumber) : String :=
  jsSlice ("00" ++ x.toString) (-2)

/-- The method `getLocaleDuration(s)`. -/
def getLocaleDuration (self : uLang) (s : JSNumber) : Except JSError String :=
  let day := JSNumber.rat 86400
  let d := (s.div day).floor
  let h := ((s.rem day).div (JSNumber.rat 3600)).floor
  let m := (((s.rem day).rem (JSNumber.rat 3600)).div (JSNumber.rat 60)).floor
  let s := ((s.rem day).rem (JSNumber.rat 3600)).rem (JSNumber.rat 60)
  do
    let days ←
      if d.gt (JSNumber.rat 0) then do
        let u ← self.unit "unitDay"
        pure (d.toString ++ " " ++ u.toJSString ++ " ")
      else
        pure ""
    pure (days ++ pad2 h ++ ":" ++ pad2 m ++ ":" ++ pad2 s ++ "")

end uLang

/-! ## The fixture of js/test/lang.test.js -/

/-- The object `mockConfig` of the test suite. -/
def mockConfig : JSObject := fun name =>
  if name = "factorSpeed" then JSValue.number (JSNumber.rat (33 / 100))
  else if name = "unitSpeed" then JSValue.string "units"
  else if name = "factorDistance" then JSValue.number (JSNumber.rat (13 / 10))
  else if name = "unitDistance" then JSValue.string "unitd"
  else if name = "factorDistanceMajor" then JSValue.number (JSNumber.rat (55 / 100))
  else if name = "unitDistanceMajor" then JSValue.string "unitdm"
  else if name = "unitDay" then JSValue.string "unitday"
  else JSValue.undefined

/-- The object `mockStrings` of the test suite. -/
def mockStrings : JSObject := fun name =>
  if name = "string1" then JSValue.string "łańcuch1"
  else if name = "units" then JSValue.string "jp"
  else if name = "unitd" then JSValue.string "jo"
  else if name = "unitdm" then JSValue.string "jo / 1000"
  else if name = "unitday" then JSValue.string "d"
  else JSValue.undefined

/-- The instance the tests work on: `lang.init(mockConfig, mockStrings)`. -/
def mockLang : uLang :=
  uLang.new.init (some mockConfig) (some mockStrings)

/-! ## IEEE-754 double arithmetic -/

/-- A double: `NaN`, an infinity, or a finite value given as an exact
rational. The sign of zero is not modelled. -/
inductive Float64 where
  | nan : Float64
  | inf (negative : Bool) : Float64
  | fin (q : ℚ) : Float64
  deriving DecidableEq

namespace Float64

/-- The integer nearest to `z`, a tie going to the even one. -/
def nearestEven (z : ℚ) : ℤ :=
  if z - ⌊z⌋ < 1 / 2 then ⌊z⌋
  else if 1 / 2 < z - ⌊z⌋ then ⌊z⌋ + 1
  else if ⌊z⌋ % 2 = 0 then ⌊z⌋
  else ⌊z⌋ + 1

/-- The distance between the doubles next to `x`: `2 ^ (e - 52)` for
`2 ^ e ≤ |x| < 2 ^ (e + 1)`, and `2 ^ (-1074)` for `|x| < 2 ^ (-1022)`. -/
def ulp (x : ℚ) : ℚ :=
  (2 : ℚ) ^ (max (Int.log 2 |x|) (-1022) - 52)

/-- The double nearest to the real number `x`, a tie going to the one with
the even significand, and the infinity of the sign of `x` when that is
`2 ^ 1024` or more in magnitude: the rounding of every arithmetic result and
of a decimal literal. -/
def ofRat (x : ℚ) : Float64 :=
  if x = 0 then fin 0
  else if (2 : ℚ) ^ (1024 : ℕ) ≤ |(nearestEven (x / ulp x) : ℚ) * ulp x| then
    inf (decide (x < 0))
  else fin ((nearestEven (x / ulp x) : ℚ) * ulp x)

/-- The operator `*`. -/
def mul : Float64 → Float64 → Float64
  | fin a, fin b => ofRat (a * b)
  | inf s, fin b => if b = 0 then nan else inf (xor s (decide (b < 0)))
  | fin a, inf s => if a = 0 then nan else inf (xor s (decide (a < 0)))
  | inf s, inf t => inf (xor s t)
  | _, _ => nan

/-- The operator `/`; a zero divisor is taken as the positive zero. -/
def div : Float64 → Float64 → Float64
  | fin a, fin b =>
    if b = 0 then (if a = 0 then nan else inf (decide (a < 0))) else ofRat (a / b)
  | inf s, fin b => inf (xor s (decide (b < 0)))
  | fin _, inf _ => fin 0
  | _, _ => nan

/-- The operator `%`: the remainder of the truncated division, which is
exact. -/
def rem : Float64 → Float64 → Float64
  | fin a, fin b =>
    if b = 0 then nan
    else fin (a - b * (if 0 ≤ a / b then ⌊a / b⌋ else ⌈a / b⌉))
  | fin a, inf _ => fin a
  | _, _ => nan

/-- The comparison `a > b`, false when an operand is `NaN`. -/
def gt : Float64 → Float64 → Bool
  | fin a, fin b => decide (b < a)
  | inf s, fin _ => !s
  | fin _, inf t => t
  | inf s, inf t => !s && t
  | _, _ => false

/-- The builtin `Math.floor`, which is exact. -/
def floor : Float64 → Float64
  | fin a => fin ⌊a⌋
  | inf s => inf s
  | nan => nan

/-- The builtin `Math.round`: the nearest integer, a tie going to the larger
one; it is exact. -/
def round : Float64 → Float64
  | fin a => fin ⌊a + 1 / 2⌋
  | inf s => inf s
  | nan => nan

end Float64

/-- The conversion to a number of an arithmetic operand, in double
arithmetic: a number that the model holds as a rational stands for the
double nearest to it, as a decimal literal does. The parsing of a text as a
number is the parameter `stringToNumber`. -/
def JSValue.toFloat64 (stringToNumber : String → Float64) : JSValue → Float64
  | JSValue.undefined => Float64.nan
  | JSValue.null => Float64.fin 0
  | JSValue.bool true => Float64.fin 1
  | JSValue.bool false => Float64.fin 0
  | JSValue.number JSNumber.nan => Float64.nan
  | JSValue.number (JSNumber.rat q) => Float64.ofRat q
  | JSValue.string s => stringToNumber s
  | JSValue.function _ => Float64.nan
  | JSValue.object => Float64.nan

/-- The conversion to text of a template literal, with the text of a number
given by the parameter `numberToString`. -/
def JSValue.toText64 (numberToString : Float64 → String) : JSValue → String
  | JSValue.number JSNumber.nan => numberToString Float64.nan
  | JSValue.number (JSNumber.rat q) => numberToString (Float64.ofRat q)
  | v => v.toJSString

/-- What a converter returns: a number, or a text when a unit is asked for. -/
inductive NumberOrText where
  | number (x : Float64) : NumberOrText
  | text (s : String) : NumberOrText
  deriving DecidableEq

/-! ## The class `uLang` in double arithmetic

The methods of js/src/lang.js that compute on numbers, with every product
and quotient rounded to the nearest double. The conversion of a number to
text (`Number::toString`) is the parameter `numberToString`. -/

namespace uLang

/-- The method `getLocaleSpeed(ms, withUnit)` in double arithmetic. -/
def getLocaleSpeed64 (numberToString : Float64 → String)
    (stringToNumber : String → Float64) (self : uLang) (ms : Float64) (withUnit : Bool) :
    Except JSError NumberOrText :=
  match self.config with
  | none => Except.error JSError.typeError
  | some config =>
    let value := ((ms.mul ((config "factorSpeed").toFloat64 stringToNumber)).mul
      (Float64.fin 360)).round.div (Float64.fin 100)
    if withUnit then do
      let u ← self.unit "unitSpeed"
      pure (NumberOrText.text (numberToString value ++ " " ++ u.toText64 numberToString))
    else
      pure (NumberOrText.number value)

/-- The method `getLocaleDistanceMajor(m, withUnit)` in double arithmetic. -/
def getLocaleDistanceMajor64 (numberToString : Float64 → String)
    (stringToNumber : String → Float64) (self : uLang) (m : Float64) (withUnit : Bool) :
    Except JSError NumberOrText :=
  match self.config with
  | none => Except.error JSError.typeError
  | some config =>
    let value := ((m.mul ((config "factorDistanceMajor").toFloat64 stringToNumber)).div
      (Float64.fin 10)).round.div (Float64.fin 100)
    if withUnit then do
      let u ← self.unit "unitDistanceMajor"
      pure (NumberOrText.text (numberToString value ++ " " ++ u.toText64 numberToString))
    else
      pure (NumberOrText.number value)

/-- The method `getLocaleDistance(m, withUnit)` in double arithmetic. -/
def getLocaleDistance64 (numberToString : Float64 → String)
    (stringToNumber : String → Float64) (self : uLang) (m : Float64) (withUnit : Bool) :
    Except JSError NumberOrText :=
  match self.config with
  | none => Except.error JSError.typeError
  | some config =>
    let value := ((m.mul ((config "factorDistance").toFloat64 stringToNumber)).mul
      (Float64.fin 100)).round.div (Float64.fin 100)
    if withUnit then do
      let u ← self.unit "unitDistance"
      pure (NumberOrText.text (numberToString value ++ " " ++ u.toText64 numberToString))
    else
      pure (NumberOrText.number value)

/-- The padding expression of `getLocaleDuration`, `00` followed by the text of
the number and cut by `slice(-2)` to its last two characters. -/
def pad64 (numberToString : Float64 → String) (x : Float64) : String :=
  jsSlice ("00" ++ numberToString x) (-2)

/-- The method `getLocaleDuration(s)` in double arithmetic. -/
def getLocaleDuration64 (numberToString : Float64 → String) (self : uLang) (s : Float64) :
    Except JSError String :=
  let day := Float64.fin 86400
  let d := (s.div day).floor
  let h := ((s.rem day).div (Float64.fin 3600)).floor
  let m := (((s.rem day).rem (Float64.fin 3600)).div (Float64.fin 60)).floor
  let s := ((s.rem day).rem (Float64.fin 3600)).rem (Float64.fin 60)
  do
    let days ←
      if d.gt (Float64.fin 0) then do
        let u ← self.unit "unitDay"
        pure (numberToString d ++ " " ++ u.toText64 numberToString ++ " ")
      else
        pure ""
    pure (days ++ pad64 numberToString h ++ ":" ++ pad64 numberToString m ++ ":" ++
      pad64 numberToString s ++ "")

end uLang

/-! ## The class `uAuth` (js/auth.js) -/

/-- The class `uUser` (js/src/user.js): what its constructor stores. -/
structure uUser where
  id : JSNumber
  login : String
  deriving DecidableEq

/-- An event as `handleEvent` reads it: its `type`. -/
structure uEvent where
  type : String
  deriving DecidableEq

/-- The fields of a `uAuth` instance; `_user` is `none` when it is `null`. -/
structure uAuth where
  _isAdmin : Bool
  _isAuthenticated : Bool
  _user : Option uUser
  deriving DecidableEq

namespace uAuth

/-- The constructor. -/
def new : uAuth :=
  { _isAdmin := false, _isAuthenticated := false, _user := none }

/-- The setter `set user(user)`. -/
def setUser (self : uAuth) (user : Option uUser) : uAuth :=
  { self with _user := user, _isAuthenticated := true }

/-- The setter `set isAdmin(isAdmin)`: its body is `this._isAdmin = true`,
which does not read the argument. -/
def setIsAdmin (self : uAuth) (_isAdmin : Bool) : uAuth :=
  { self with _isAdmin := true }

/-- The getter `get isAdmin()`. -/
def isAdmin (self : uAuth) : Bool :=
  self._isAdmin

/-- The getter `get isAuthenticated()`. -/
def isAuthenticated (self : uAuth) : Bool :=
  self._isAuthenticated

/-- The getter `get user()`. -/
def user (self : uAuth) : Option uUser :=
  self._user

/-- The method `handleEvent(event)`: whether it calls `changePassword()`.
The constant `uEvent.PASSWORD` of js/event.js, which is not among the
sources, is the parameter `PASSWORD`. -/
def handleEvent (PASSWORD : String) (self : uAuth) (event : uEvent) : Bool :=
  decide (event.type = PASSWORD) && self.isAuthenticated

/-- An assignment to one of the two properties that have a setter. -/
inductive Assignment where
  | user (user : Option uUser) : Assignment
  | isAdmin (isAdmin : Bool) : Assignment
  deriving DecidableEq

/-- The effect of one assignment. -/
def assign (self : uAuth) : Assignment → uAuth
  | Assignment.user u => self.setUser u
  | Assignment.isAdmin b => self.setIsAdmin b

/-- The effect of a sequence of assignments, the first one first. -/
def assignAll (self : uAuth) (assignments : List Assignment) : uAuth :=
  assignments.foldl assign self

/-- Whether an assignment is one to `user`. -/
def Assignment.isUser : Assignment → Bool
  | Assignment.user _ => true
  | Assignment.isAdmin _ => false

end uAuth

/-! ## The class `uSelect` (js/src/select.js) -/

/-- An `HTMLOptionElement`: what `new Option(text, value, defaultSelected,
selected)` and the assignment to `disabled` store. The selectedness that the
browser recomputes when the options of a select element change is not
modelled: `selected` is the value given at construction. -/
structure HTMLOptionElement where
  text : String
  value : String
  defaultSelected : Bool
  selected : Bool
  disabled : Bool
  deriving DecidableEq

/-- The method `add(option, before)` of a select element and of its options
collection, on the list of the options: the option goes before the one at
the index `before`, and to the end when `before` is omitted or is no index of
the list. -/
def HTMLSelectElement.add (options : List HTMLOptionElement) (option : HTMLOptionElement)
    (before : Option ℕ) : List HTMLOptionElement :=
  match before with
  | some index =>
    if index < options.length then options.take index ++ option :: options.drop index
    else options ++ [option]
  | none => options ++ [option]

/-- The class `uListItem` (js/src/listitem.js). -/
structure uListItem where
  listValue : String
  listText : String
  deriving DecidableEq

/-- The constructor of `uListItem`: `listValue = String(id)` and
`listText = String(value)`. -/
def uListItem.new (id value : JSValue) : uListItem :=
  { listValue := id.toJSString, listText := value.toJSString }

/-- The fields of a `uSelect` instance; `element` is the select element, seen
as the list of its options. -/
structure uSelect where
  element : List HTMLOptionElement
  hasAllOption : Bool
  allText : String
  hasHead : Bool
  headText : String
  deriving DecidableEq

namespace uSelect

/-- The method `addHead()`. -/
def addHead (self : uSelect) : uSelect :=
  let head : HTMLOptionElement :=
    { text := self.headText, value := "0", defaultSelected := true, selected := true,
      disabled := false }
  let head := { head with disabled := true }
  { self with element := HTMLSelectElement.add self.element head (some 0) }

/-- The setter `set head(text)`. -/
def setHead (self : uSelect) (text : String) : uSelect :=
  if text.length ≠ 0 then
    addHead { self with hasHead := true, headText := text }
  else self

/-- The constructor `new uSelect(element, head)`; `head` is `none` when it is
omitted. -/
def new (element : List HTMLOptionElement) (head : Option String) : uSelect :=
  let self : uSelect :=
    { element := element, hasAllOption := false, allText := "", hasHead := false,
      headText := "" }
  match head with
  | some text => if text.length ≠ 0 then self.setHead text else self
  | none => self

/-- The method `getOption(value)`: the first option of that value. -/
def getOption (self : uSelect) (value : String) : Option HTMLOptionElement :=
  self.element.find? (fun o => decide (o.value = value))

/-- The method `hasValue(value)`. -/
def hasValue (self : uSelect) (value : String) : Bool :=
  (self.getOption value).isSome

/-- The method `remove(value)`: `option.index` is the place of the option that
`getOption` found, the first one of that value. -/
def remove (self : uSelect) (value : String) : uSelect :=
  match self.getOption value with
  | some _ =>
    { self with element :=
        self.element.eraseIdx (self.element.findIdx (fun o => decide (o.value = value))) }
  | none => self

/-- The method `showAllOption(text)`; `text` is `none` when it is omitted. An
empty text is falsy and leaves `allText` as it is. -/
def showAllOption (self : uSelect) (text : Option String) : uSelect :=
  let self :=
    match text with
    | some t => if t.length ≠ 0 then { self with allText := t } else self
    | none => self
  let self := { self with hasAllOption := true }
  let index := if self.hasHead then 1 else 0
  let all : HTMLOptionElement :=
    { text := self.allText, value := "all", defaultSelected := false, selected := false,
      disabled := false }
  { self with element := HTMLSelectElement.add self.element all (some index) }

/-- The method `hideAllOption()`. -/
def hideAllOption (self : uSelect) : uSelect :=
  remove { self with hasAllOption := false } "all"

/-- The method `setOptions(options, selected)`; `selected` is `none` when it is
omitted. -/
def setOptions (self : uSelect) (options : List uListItem) (selected : Option String) :
    uSelect :=
  let selected := selected.getD ""
  let self := { self with element := [] }
  let self := if self.hasHead then self.addHead else self
  let all : HTMLOptionElement :=
    { text := self.allText, value := "all", defaultSelected := false,
      selected := decide (selected = "all"), disabled := false }
  let self :=
    if self.hasAllOption then
      { self with element := HTMLSelectElement.add self.element all none }
    else self
  options.foldl (fun (acc : uSelect) (option : uListItem) =>
    let item : HTMLOptionElement :=
      { text := option.listText, value := option.listValue, defaultSelected := false,
        selected := decide (selected = option.listValue), disabled := false }
    { acc with element := HTMLSelectElement.add acc.element item none }) self

end uSelect

/-! ## The map view-model

The file js/src/mapviewmodel.js is not among the sources: the model follows
spec.md, sections 3 and 4.4, and the expectations of
js/test/mapviewmodel.test.js. -/

/-- Modelled from the spec: a position of a track (section 3), whose class is
not among the sources; of its fields the timestamp and the coordinates. -/
structure Position where
  timestamp : ℤ
  latitude : ℚ
  longitude : ℚ
  deriving DecidableEq

/-- Modelled from the spec: a track (section 3), whose class is not among the
sources: the ordered sequence of its positions. Positions are appended, so
the most recent one is the last. -/
structure Track where
  positions : List Position
  deriving DecidableEq

/-- The extent of a viewport, a 4-tuple. -/
abbrev Bounds := ℚ × ℚ × ℚ × ℚ

/-- Modelled from the spec: the application state (section 3), whose class
`uState` is not among the sources, as far as the map view-model reads it. -/
structure uState where
  currentTrack : Option Track
  showLatest : Bool
  deriving DecidableEq

/-- Modelled from the spec: a new `uState`, with no current track and
`showLatest` false. -/
def uState.new : uState :=
  { currentTrack := none, showLatest := false }

/-- A call on the backend adapter (section 6 of the spec). -/
inductive ApiCall where
  | init : ApiCall
  | cleanup : ApiCall
  | getBounds : ApiCall
  | zoomToBounds (bounds : Bounds) : ApiCall
  | zoomToExtent : ApiCall
  | displayTrack (track : Track) (fullRedraw : Bool) : ApiCall
  | clearMap : ApiCall
  deriving DecidableEq

/-- The fields of a `MapViewModel` that the tests set and read: `state`, the
active adapter `api` (named by its backend, `none` when `null`) and
`savedBounds`. -/
structure MapViewModel where
  state : uState
  api : Option String
  savedBounds : Option Bounds
  deriving DecidableEq

/-- The fragment that `getPopupHtml` builds, as far as the spec and the tests
describe it: the ordinal of the point, the length of the track, and whether
the statistics panel, the element with the id `pright`, is in it. -/
structure PopupHtml where
  ordinal : ℕ
  total : ℕ
  stats : Bool
  deriving DecidableEq

/-- What `loadMapAPI` does that the tests observe: the calls of `getApi`, of
the methods of an adapter (named by its backend), of `uUtils.error` and of
`onReady`. -/
inductive LoadEffect where
  | getApi (name : String) : LoadEffect
  | init (name : String) : LoadEffect
  | getBounds (adapter : String) : LoadEffect
  | cleanup (adapter : String) : LoadEffect
  | error (name : String) : LoadEffect
  | onReady : LoadEffect
  deriving DecidableEq

/-- The result of one `loadMapAPI`: the view-model, the configuration value
`config.mapApi` and the effects, in order. -/
structure LoadOutcome where
  vm : MapViewModel
  mapApi : String
  effects : List LoadEffect
  deriving DecidableEq

namespace MapViewModel

/-- The view-model of the tests: `new MapViewModel(state)` on a new state,
with `vm.api = mockApi`. -/
def mock : MapViewModel :=
  { state := uState.new, api := some "mockApi", savedBounds := none }

/-- Modelled from the spec: the method `onReady` of js/src/mapviewmodel.js,
which is not among the sources. Section 4.4.1: `zoomToBounds(savedBounds)`
when `savedBounds` is not null. For the track the spec names one case only,
`displayTrack(currentTrack, true)` without saved bounds; the test `should
display track without update if current track is set in state and bounds are
set` expects `displayTrack(track, false)` with saved bounds, so the track is
displayed whenever there is one, with a full redraw exactly when there are
no saved bounds. -/
def onReady (vm : MapViewModel) : List ApiCall :=
  (match vm.savedBounds with
    | some bounds => [ApiCall.zoomToBounds bounds]
    | none => []) ++
  (match vm.state.currentTrack with
    | some track => [ApiCall.displayTrack track vm.savedBounds.isNone]
    | none => [])

/-- Modelled from the spec: the method `getPopupHtml` of
js/src/mapviewmodel.js, which is not among the sources. Section 4.4.3: the
fragment for the point at `pointIndex` of the current track holds the
1-based ordinal of the point and the length of the track. The test `should
get popup without stats when track contains only latest positions` expects
no statistics panel for the first of two points with `showLatest = true`, so
the panel is there exactly when `showLatest` is false. There is no fragment
without a current track or without a point at the index. -/
def getPopupHtml (vm : MapViewModel) (pointIndex : ℕ) : Option PopupHtml :=
  match vm.state.currentTrack with
  | some track =>
    if pointIndex < track.positions.length then
      some { ordinal := pointIndex + 1, total := track.positions.length,
             stats := !vm.state.showLatest }
    else none
  | none => none

/-- The default backend, the value that the test of a failing load expects
in `config.mapApi`. -/
def defaultMapApi : String := "openlayers"

/-- Modelled from the spec: the method `loadMapAPI(name)` of
js/src/mapviewmodel.js, which is not among the sources, for one request that
no later request supersedes, from the call to the completion of `init()`
(section 4.4). `mapApi` is the configured backend name when the request is
made, `initSucceeds` the outcome of `init()`, `bounds` what `getBounds()` of
the previous adapter returns. On success the bounds of a previous adapter
are saved before its `cleanup()`, the new adapter becomes active and
`onReady` is invoked. On failure the error is reported, the configured name
becomes the last known-good name, that of the active adapter, or the default
when there is none, and the active adapter stays. -/
def loadMapAPI (vm : MapViewModel) (mapApi name : String) (initSucceeds : Bool)
    (bounds : Option Bounds) : LoadOutcome :=
  if initSucceeds then
    match vm.api with
    | some previous =>
      { vm := { vm with api := some name, savedBounds := bounds },
        mapApi := mapApi,
        effects := [LoadEffect.getApi name, LoadEffect.init name,
          LoadEffect.getBounds previous, LoadEffect.cleanup previous, LoadEffect.onReady] }
    | none =>
      { vm := { vm with api := some name },
        mapApi := mapApi,
        effects := [LoadEffect.getApi name, LoadEffect.init name, LoadEffect.onReady] }
  else
    { vm := vm,
      mapApi := vm.api.getD defaultMapApi,
      effects := [LoadEffect.getApi name, LoadEffect.init name, LoadEffect.error name] }

end MapViewModel

/-! ## The fixture and the expectations of js/test/mapviewmodel.test.js -/

/-- The array `bounds` of the tests, `[ 1, 2, 3, 4 ]`. -/
def testBounds : Bounds := (1, 2, 3, 4)

/-- The track `TrackFactory.getTrack(0)` of the tests, without positions
(the factory is not among the sources). -/
def testTrack : Track := { positions := [] }

/-- The track `TrackFactory.getTrack(2)` of the tests, with two positions
(the factory is not among the sources; the positions are in the order of
their timestamps). -/
def testTrack2 : Track :=
  { positions := [{ timestamp := 1, latitude := 52, longitude := 21 },
      { timestamp := 2, latitude := 52, longitude := 21 }] }

/-- The arguments of the calls of `zoomToBounds` among the calls, in order. -/
def zoomToBoundsCalls (calls : List ApiCall) : List Bounds :=
  calls.filterMap (fun c =>
    match c with
    | ApiCall.zoomToBounds bounds => some bounds
    | _ => none)

/-- The arguments of the calls of `displayTrack` among the calls, in order. -/
def displayTrackCalls (calls : List ApiCall) : List (Track × Bool) :=
  calls.filterMap (fun c =>
    match c with
    | ApiCall.displayTrack track fullRedraw => some (track, fullRedraw)
    | _ => none)

/-- The expectations of the four tests of `onReady` (lines 125-168), on any
implementation of `onReady` given by the calls it makes on the adapter:
`should zoom to bounds if has saved bounds`, `should not zoom to bounds if
there are no saved bounds`, `should display track with update if current
track is set in state and bounds are not set`, `should display track without
update if current track is set in state and bounds are set`. -/
def PassesOnReadyTests (onReady : MapViewModel → List ApiCall) : Prop :=
  zoomToBoundsCalls (onReady { MapViewModel.mock with savedBounds := some testBounds }) =
    [testBounds] ∧
  zoomToBoundsCalls (onReady { MapViewModel.mock with savedBounds := none }) = [] ∧
  displayTrackCalls (onReady
    { MapViewModel.mock with
      state := { uState.new with currentTrack := some testTrack }, savedBounds := none }) =
    [(testTrack, true)] ∧
  displayTrackCalls (onReady
    { MapViewModel.mock with
      state := { uState.new with currentTrack := some testTrack },
      savedBounds := some testBounds }) =
    [(testTrack, false)]

/-- The redraw policy of claim C11, on any implementation of `onReady`: with
saved bounds one `zoomToBounds(savedBounds)` and no `displayTrack`; without
them and with a current track one `displayTrack(currentTrack, true)`;
otherwise no call. -/
def ThreeWayRedraw (onReady : MapViewModel → List ApiCall) : Prop :=
  ∀ vm : MapViewModel,
    match vm.savedBounds, vm.state.currentTrack with
    | some bounds, _ =>
      zoomToBoundsCalls (onReady vm) = [bounds] ∧ displayTrackCalls (onReady vm) = []
    | none, some track => displayTrackCalls (onReady vm) = [(track, true)]
    | none, none => onReady vm = []

/-- The expectations of the tests `should get popup with stats when track
does not contain only latest positions` and `should get popup without stats
when track contains only latest positions` (lines 242-264), on any
implementation of `getPopupHtml`: for the point 0 of a track of two
positions the panel is there with `showLatest = false` and is not there with
`showLatest = true`. -/
def PassesPopupTests (getPopupHtml : MapViewModel → ℕ → Option PopupHtml) : Prop :=
  (∃ popup : PopupHtml,
    getPopupHtml { MapViewModel.mock with
      state := { currentTrack := some testTrack2, showLatest := false } } 0 = some popup ∧
    popup.stats = true) ∧
  (∃ popup : PopupHtml,
    getPopupHtml { MapViewModel.mock with
      state := { currentTrack := some testTrack2, showLatest := true } } 0 = some popup ∧
    popup.stats = false)

/-- The rule of claim C12, on any implementation of `getPopupHtml`: for a
point of the current track the panel is left out exactly when `showLatest` is
true and the point is the most recent one, the last of the track. -/
def StatsUnlessLatestPoint (getPopupHtml : MapViewModel → ℕ → Option PopupHtml) : Prop :=
  ∀ (vm : MapViewModel) (track : Track) (pointIndex : ℕ),
    vm.state.currentTrack = some track → pointIndex < track.positions.length →
    ∃ popup : PopupHtml, getPopupHtml vm pointIndex = some popup ∧
      popup.stats = !(vm.state.showLatest && decide (pointIndex + 1 = track.positions.length))

/-- The expectations of the test `should load gmaps api and fail with error,
config map api should be set to another api` (lines 94-109, after the
`beforeEach` that sets `config.mapApi` to `mockApi`), on any implementation
of `loadMapAPI`: on a new view-model (`vm.api` is `null`, line 76) a failing
load of `gmaps` calls `getApi('gmaps')`, reports the error, does not call
`onReady` and leaves `config.mapApi` equal to `openlayers`. -/
def PassesFailedLoadTest
    (loadMapAPI : MapViewModel → String → String → Bool → Option Bounds → LoadOutcome) :
    Prop :=
  ∀ bounds : Option Bounds,
    LoadEffect.getApi "gmaps" ∈
      (loadMapAPI { MapViewModel.mock with api := none } "mockApi" "gmaps" false
        bounds).effects ∧
    LoadEffect.onReady ∉
      (loadMapAPI { MapViewModel.mock with api := none } "mockApi" "gmaps" false
        bounds).effects ∧
    LoadEffect.error "gmaps" ∈
      (loadMapAPI { MapViewModel.mock with api := none } "mockApi" "gmaps" false
        bounds).effects ∧
    (loadMapAPI { MapViewModel.mock with api := none } "mockApi" "gmaps" false
      bounds).mapApi = "openlayers"

/-- The rule of claim C13, on any implementation of `loadMapAPI`: a load
whose `init()` fails reports the error, does not invoke `onReady`, leaves the
active adapter as it was and leaves in `config.mapApi` the value it had
before the request. -/
def RevertsToPriorMapApi
    (loadMapAPI : MapViewModel → String → String → Bool → Option Bounds → LoadOutcome) :
    Prop :=
  ∀ (vm : MapViewModel) (mapApi name : String) (bounds : Option Bounds),
    LoadEffect.error name ∈ (loadMapAPI vm mapApi name false bounds).effects ∧
    LoadEffect.onReady ∉ (loadMapAPI vm mapApi name false bounds).effects ∧
    (loadMapAPI vm mapApi name false bounds).vm.api = vm.api ∧
    (loadMapAPI vm mapApi name false bounds).mapApi = mapApi

/-! ## Vocabulary of the specification -/

/-- The contract of a converter `conv` whose unit is `unit(unitName)` and
whose factor is `config[factorName]`. For every instance and input: the call
with `withUnit = true` is the text of the value of the call with
`withUnit = false`, a space and the unit; an error of the unit lookup is the
error of the call; the call with `withUnit = false` returns a number unless
the config is `null`, throws no `Error` of the program, and depends on
nothing but the input and the factor. -/
def AppendsUnit (conv : uLang → JSNumber → Bool → Except JSError JSValue)
    (unitName factorName : String) : Prop :=
  ∀ (self : uLang) (x : JSNumber),
    (conv self x true = do
      let v ← conv self x false
      let u ← self.unit unitName
      pure (JSValue.string (v.toJSString ++ " " ++ u.toJSString))) ∧
    (∀ e : JSError, self.unit unitName = Except.error e → conv self x true = Except.error e) ∧
    (self.config ≠ none → ∃ value : JSNumber,
      conv self x false = Except.ok (JSValue.number value)) ∧
    (∀ message : String, conv self x false ≠ Except.error (JSError.error message)) ∧
    (∀ (strings strings2 config config2 : JSObject),
      config factorName = config2 factorName →
      conv (uLang.mk strings (some config)) x false =
        conv (uLang.mk strings2 (some config2)) x false)

/-- The two decimal digits of a number below 100, the tens first. -/
def twoDigits (n : ℕ) : String :=
  String.mk [Nat.digitChar (n / 10), Nat.digitChar (n % 10)]

/-- The text `HH:MM:SS` of three fields. -/
def clockText (hh mm ss : ℕ) : String :=
  twoDigits hh ++ ":" ++ twoDigits mm ++ ":" ++ twoDigits ss

/-- The value of a decimal digit. -/
def digitValue (c : Char) : Option ℕ :=
  if '0' ≤ c ∧ c ≤ '9' then some (c.toNat - '0'.toNat) else none

/-- The three fields of a text `HH:MM:SS`, and `none` for any other text. -/
def parseClock (t : String) : Option (ℕ × ℕ × ℕ) :=
  match t.data with
  | [a, b, p, c, d, q, e, f] =>
    if p = ':' ∧ q = ':' then do
      let a ← digitValue a
      let b ← digitValue b
      let c ← digitValue c
      let d ← digitValue d
      let e ← digitValue e
      let f ← digitValue f
      pure (10 * a + b, 10 * c + d, 10 * e + f)
    else none
  | _ => none

/-- The text and the value of every option of a list, in order. -/
def optionEntries (options : List HTMLOptionElement) : List (String × String) :=
  options.map (fun o => (o.text, o.value))

/-- The text of the option that `showAllOption(text)` inserts: `text` when it
is given and not empty, the stored `allText` otherwise. -/
def uSelect.allOptionText (self : uSelect) (text : Option String) : String :=
  match text with
  | some t => if t = "" then self.allText else t
  | none => self.allText

/-- A select without head and without options, after `showAllOption('All')`
and `hideAllOption()`. -/
def hiddenAllSelect : uSelect :=
  ((uSelect.new [] none).showAllOption (some "All")).hideAllOption

/-- What is used of `Number::toString`: an integer from 0 to `2 ^ 53 - 1` is
printed as its decimal digits. -/
def PrintsIntegers (numberToString : Float64 → String) : Prop :=
  ∀ n : ℕ, n < 2 ^ 53 → numberToString (Float64.fin (n : ℚ)) = Nat.repr n

/-- A conversion of doubles to text in plain decimal notation, which prints
the integers as `PrintsIntegers` asks. -/
def plainNumberToString : Float64 → String
  | Float64.nan => "NaN"
  | Float64.inf false => "Infinity"
  | Float64.inf true => "-Infinity"
  | Float64.fin q => (JSNumber.rat q).toString

/-- A config whose factors are the doubles 1 (`factorSpeed`), 0.75
(`factorDistanceMajor`) and 1 (`factorDistance`). -/
def plainFactors : JSObject := fun name =>
  if name = "factorSpeed" then JSValue.number (JSNumber.rat 1)
  else if name = "factorDistanceMajor" then JSValue.number (JSNumber.rat (3 / 4))
  else if name = "factorDistance" then JSValue.number (JSNumber.rat 1)
  else JSValue.undefined

/-! # Properties -/

/-! ## Lookups: `_` and `unit` -/

theorem JSValue.typeof_eq_undefined (v : JSValue) :
    v.typeof = "undefined" ↔ v = JSValue.undefined := by
  cases v <;> simp [JSValue.typeof]

theorem uLang.lookup_eq (self : uLang) (name : JSValue) :
    self.lookup name =
      if self.strings name.toJSString = JSValue.undefined then
        Except.error (JSError.error "Unknown localized string")
      else Except.ok (self.strings name.toJSString) := by
  unfold uLang.lookup
  by_cases h : self.strings name.toJSString = JSValue.undefined
  · rw [if_pos ((JSValue.typeof_eq_undefined _).2 h), if_pos h]
  · rw [if_neg (fun h1 => h ((JSValue.typeof_eq_undefined _).1 h1)), if_neg h]

theorem uLang.unit_eq (strings config : JSObject) (name : String) :
    (uLang.mk strings (some config)).unit name =
      if config name = JSValue.undefined then
        Except.error (JSError.error "Unknown localized unit")
      else (uLang.mk strings (some config)).lookup (config name) := by
  unfold uLang.unit
  by_cases h : config name = JSValue.undefined
  · simp only [if_pos ((JSValue.typeof_eq_undefined _).2 h), if_pos h]
  · simp only [if_neg (fun h1 => h ((JSValue.typeof_eq_undefined _).1 h1)), if_neg h]

/-- C1: on the strings table `{}` the call `_('toString')` does not fail with
`Unknown localized string`, although the table holds no entry for the key: the
read `strings['toString']` gives the function inherited from
`Object.prototype`, whose `typeof` is not `undefined`, and `_` returns it. The
same holds for every table that is an ordinary object and every inherited
function name for which it has no entry of its own. Apart from the inherited
names the method does what the claim says: it returns the entry of a key that
has one (other than `undefined`), and fails for a key without entry. -/
theorem lookup_returns_inherited_function :
    (uLang.new.init (some mockConfig) (some (JSObject.ofOwn (fun _ => none)))).lookup
      (JSValue.string "toString") = Except.ok (JSValue.function "toString") ∧
    (uLang.new.init (some mockConfig) (some (JSObject.ofOwn (fun _ => none)))).lookup
      (JSValue.string "toString") ≠
        Except.error (JSError.error "Unknown localized string") ∧
    (∀ (config : Option JSObject) (own : String → Option JSValue) (name : String),
      own name = none → name ∈ Object.prototypeFunctions →
      (uLang.mk (JSObject.ofOwn own) config).lookup (JSValue.string name) =
        Except.ok (JSValue.function name)) ∧
    (∀ (config : Option JSObject) (own : String → Option JSValue) (name : String)
      (v : JSValue), own name = some v → v ≠ JSValue.undefined →
      (uLang.mk (JSObject.ofOwn own) config).lookup (JSValue.string name) = Except.ok v) ∧
    (∀ (config : Option JSObject) (own : String → Option JSValue) (name : String),
      own name = none → Object.prototype name = JSValue.undefined →
      (uLang.mk (JSObject.ofOwn own) config).lookup (JSValue.string name) =
        Except.error (JSError.error "Unknown localized string")) := by
  have general : ∀ (config : Option JSObject) (own : String → Option JSValue)
      (name : String), own name = none → name ∈ Object.prototypeFunctions →
      (uLang.mk (JSObject.ofOwn own) config).lookup (JSValue.string name) =
        Except.ok (JSValue.function name) := by
    intro config own name hown hname
    have hread : JSObject.ofOwn own name = JSValue.function name := by
      simp only [JSObject.ofOwn, hown, Object.prototype, if_pos hname]
    rw [uLang.lookup_eq]
    simp only [JSValue.toJSString, hread]
    rw [if_neg (by simp)]
  have h := general (some mockConfig) (fun _ => none) "toString" rfl (by decide)
  refine ⟨h, ?_, general, ?_, ?_⟩
  · intro e
    have h2 : (uLang.new.init (some mockConfig)
        (some (JSObject.ofOwn (fun _ => none)))).lookup
          (JSValue.string "toString") = Except.ok (JSValue.function "toString") := h
    rw [h2] at e
    cases e
  · intro config own name v hown hv
    have hread : JSObject.ofOwn own name = v := by simp only [JSObject.ofOwn, hown]
    rw [uLang.lookup_eq]
    simp only [JSValue.toJSString, hread]
    rw [if_neg hv]
  · intro config own name hown hp
    have hread : JSObject.ofOwn own name = JSValue.undefined := by
      simp only [JSObject.ofOwn, hown, hp]
    rw [uLang.lookup_eq]
    simp only [JSValue.toJSString, hread]
    rfl

/-- C2, counterexample: on a new `uLang`, whose config is `null` and so has
no entry for `unitSpeed`, `unit('unitSpeed')` throws a `TypeError`, not the
error `Unknown localized unit`. -/
theorem unit_on_null_config_throws_typeError :
    uLang.new.config = none ∧
    uLang.new.unit "unitSpeed" = Except.error JSError.typeError ∧
    uLang.new.unit "unitSpeed" ≠ Except.error (JSError.error "Unknown localized unit") := by
  refine ⟨rfl, rfl, ?_⟩
  intro e
  have h : uLang.new.unit "unitSpeed" = Except.error JSError.typeError := rfl
  rw [h] at e
  cases e

/-- C2, as amended: for every config that is an ordinary object, every
strings table and every name that is not the name of an inherited property,
`unit(name)` fails with `Unknown localized unit` when the config has no entry
for the name, or one whose value is `undefined`; for every name with an entry
that is not `undefined` it equals `_(config[name])`, the translation of the
configured key, and fails with `Unknown localized string` when that key has
no translation. On a `null` config `unit(name)` throws a `TypeError`. -/
theorem unit_translates_configured_key (strings : JSObject)
    (own : String → Option JSValue) (name : String) :
    (own name = none → Object.prototype name = JSValue.undefined →
        (uLang.mk strings (some (JSObject.ofOwn own))).unit name =
          Except.error (JSError.error "Unknown localized unit")) ∧
    (own name = some JSValue.undefined →
        (uLang.mk strings (some (JSObject.ofOwn own))).unit name =
          Except.error (JSError.error "Unknown localized unit")) ∧
    (∀ v : JSValue, own name = some v → v ≠ JSValue.undefined →
        (uLang.mk strings (some (JSObject.ofOwn own))).unit name =
          (uLang.mk strings (some (JSObject.ofOwn own))).lookup v ∧
        (strings v.toJSString ≠ JSValue.undefined →
          (uLang.mk strings (some (JSObject.ofOwn own))).unit name =
            Except.ok (strings v.toJSString)) ∧
        (strings v.toJSString = JSValue.undefined →
          (uLang.mk strings (some (JSObject.ofOwn own))).unit name =
            Except.error (JSError.error "Unknown localized string"))) ∧
    (uLang.mk strings none).unit name = Except.error JSError.typeError := by
  refine ⟨fun h hp => ?_, fun h => ?_, fun v h hv => ⟨?_, fun h1 => ?_, fun h1 => ?_⟩, rfl⟩
  · have hread : JSObject.ofOwn own name = JSValue.undefined := by
      simp only [JSObject.ofOwn, h, hp]
    rw [uLang.unit_eq, if_pos hread]
  · have hread : JSObject.ofOwn own name = JSValue.undefined := by
      simp only [JSObject.ofOwn, h]
    rw [uLang.unit_eq, if_pos hread]
  · have hread : JSObject.ofOwn own name = v := by simp only [JSObject.ofOwn, h]
    rw [uLang.unit_eq, hread, if_neg hv]
  · have hread : JSObject.ofOwn own name = v := by simp only [JSObject.ofOwn, h]
    rw [uLang.unit_eq, hread, if_neg hv, uLang.lookup_eq, if_neg h1]
  · have hread : JSObject.ofOwn own name = v := by simp only [JSObject.ofOwn, h]
    rw [uLang.unit_eq, hread, if_neg hv, uLang.lookup_eq, if_pos h1]

/-! ## Arithmetic of the converters -/

theorem JSNumber.toString_natCast (n : ℕ) :
    (JSNumber.rat (n : ℚ)).toString = Nat.repr n := by
  have h0 : ¬ ((n : ℚ) < 0) := not_lt.mpr (Nat.cast_nonneg n)
  have h1 : |(n : ℚ)| = (n : ℚ) := abs_of_nonneg (Nat.cast_nonneg n)
  simp only [JSNumber.toString, h1, if_neg h0, Int.fract_natCast, JSNumber.fracDigits]
  simp

theorem JSNumber.round_near (x : ℚ) :
    x - 1 / 2 < ((⌊x + 1 / 2⌋ : ℤ) : ℚ) ∧ ((⌊x + 1 / 2⌋ : ℤ) : ℚ) ≤ x + 1 / 2 := by
  have h1 := Int.floor_le (x + 1 / 2)
  have h2 := Int.lt_floor_add_one (x + 1 / 2)
  constructor <;> linarith

theorem JSNumber.div_rat_hundred (a : ℚ) :
    (JSNumber.rat a).div (JSNumber.rat 100) = JSNumber.rat (a / 100) := by
  simp [JSNumber.div]

theorem JSNumber.div_rat_ten (a : ℚ) :
    (JSNumber.rat a).div (JSNumber.rat 10) = JSNumber.rat (a / 10) := by
  simp [JSNumber.div]

theorem uLang.getLocaleSpeed_false (stringToNumber : String → JSNumber)
    (strings config : JSObject) (ms f : ℚ)
    (hf : config "factorSpeed" = JSValue.number (JSNumber.rat f)) :
    (uLang.mk strings (some config)).getLocaleSpeed stringToNumber (JSNumber.rat ms) false =
      Except.ok (JSValue.number (JSNumber.rat (((⌊ms * f * 360 + 1 / 2⌋ : ℤ) : ℚ) / 100))) := by
  simp only [uLang.getLocaleSpeed, hf, JSValue.toNumber, JSNumber.mul, JSNumber.round,
    JSNumber.div_rat_hundred]
  rfl

theorem uLang.getLocaleDistanceMajor_false (stringToNumber : String → JSNumber)
    (strings config : JSObject) (m f : ℚ)
    (hf : config "factorDistanceMajor" = JSValue.number (JSNumber.rat f)) :
    (uLang.mk strings (some config)).getLocaleDistanceMajor stringToNumber
        (JSNumber.rat m) false =
      Except.ok (JSValue.number (JSNumber.rat (((⌊m * f / 10 + 1 / 2⌋ : ℤ) : ℚ) / 100))) := by
  simp only [uLang.getLocaleDistanceMajor, hf, JSValue.toNumber, JSNumber.mul, JSNumber.round,
    JSNumber.div_rat_hundred, JSNumber.div_rat_ten]
  rfl

theorem uLang.getLocaleDistance_false (stringToNumber : String → JSNumber)
    (strings config : JSObject) (m f : ℚ)
    (hf : config "factorDistance" = JSValue.number (JSNumber.rat f)) :
    (uLang.mk strings (some config)).getLocaleDistance stringToNumber (JSNumber.rat m) false =
      Except.ok (JSValue.number (JSNumber.rat (((⌊m * f * 100 + 1 / 2⌋ : ℤ) : ℚ) / 100))) := by
  simp only [uLang.getLocaleDistance, hf, JSValue.toNumber, JSNumber.mul, JSNumber.round,
    JSNumber.div_rat_hundred]
  rfl

/-! ## Durations -/

theorem jsSlice_pad (n : ℕ) (h : n < 100) :
    jsSlice ("00" ++ Nat.repr n) (-2) = twoDigits n := by
  revert n
  decide

theorem digitValue_digitChar (d : ℕ) (h : d < 10) :
    digitValue (Nat.digitChar d) = some d := by
  revert d
  decide

theorem uLang.pad2_natCast (n : ℕ) (h : n < 100) :
    uLang.pad2 (JSNumber.rat (n : ℚ)) = twoDigits n := by
  rw [uLang.pad2, JSNumber.toString_natCast, jsSlice_pad n h]

theorem JSNumber.floor_div_natCast_aux (a b : ℕ) :
    ⌊(a : ℚ) / (b : ℚ)⌋ = ((a / b : ℕ) : ℤ) := by
  have h := Rat.floor_intCast_div_natCast (a : ℤ) b
  simpa using h

theorem JSNumber.rem_natCast (a b : ℕ) (hb : b ≠ 0) :
    (JSNumber.rat (a : ℚ)).rem (JSNumber.rat (b : ℚ)) = JSNumber.rat ((a % b : ℕ) : ℚ) := by
  have hb0 : (b : ℚ) ≠ 0 := Nat.cast_ne_zero.mpr hb
  have h0 : (0 : ℚ) ≤ (a : ℚ) / (b : ℚ) := by positivity
  simp only [JSNumber.rem, if_neg hb0, if_pos h0, JSNumber.floor_div_natCast_aux]
  congr 1
  have h1 := Nat.mod_add_div a b
  have h2 : ((a % b : ℕ) : ℚ) + (b : ℚ) * ((a / b : ℕ) : ℚ) = (a : ℚ) := by exact_mod_cast h1
  rw [Int.cast_natCast]
  linarith

theorem JSNumber.floor_div_natCast (a b : ℕ) (hb : b ≠ 0) :
    ((JSNumber.rat (a : ℚ)).div (JSNumber.rat (b : ℚ))).floor =
      JSNumber.rat ((a / b : ℕ) : ℚ) := by
  have hb0 : (b : ℚ) ≠ 0 := Nat.cast_ne_zero.mpr hb
  simp only [JSNumber.div, if_neg hb0, JSNumber.floor, JSNumber.floor_div_natCast_aux,
    Int.cast_natCast]

theorem JSNumber.gt_zero_natCast (n : ℕ) :
    (JSNumber.rat (n : ℚ)).gt (JSNumber.rat 0) = decide (0 < n) := by
  simp [JSNumber.gt]

/-- The days, hours, minutes and seconds that `getLocaleDuration` computes
from a natural number of seconds, and the text it builds from them. -/
theorem uLang.getLocaleDuration_natCast (self : uLang) (n : ℕ) :
    self.getLocaleDuration (JSNumber.rat (n : ℚ)) = (do
      let days ←
        if 0 < n / 86400 then do
          let u ← self.unit "unitDay"
          pure (Nat.repr (n / 86400) ++ " " ++ u.toJSString ++ " ")
        else
          pure ""
      pure (days ++ clockText (n % 86400 / 3600) (n % 86400 % 3600 / 60)
        (n % 86400 % 3600 % 60))) := by
  have e1 : (86400 : ℚ) = ((86400 : ℕ) : ℚ) := by norm_num
  have e2 : (3600 : ℚ) = ((3600 : ℕ) : ℚ) := by norm_num
  have e3 : (60 : ℚ) = ((60 : ℕ) : ℚ) := by norm_num
  have hh : n % 86400 / 3600 < 100 := by omega
  have hm : n % 86400 % 3600 / 60 < 100 := by omega
  have hs : n % 86400 % 3600 % 60 < 100 := by omega
  unfold uLang.getLocaleDuration
  simp only [e1, e2, e3]
  rw [JSNumber.rem_natCast n 86400 (by norm_num),
    JSNumber.rem_natCast (n % 86400) 3600 (by norm_num),
    JSNumber.rem_natCast (n % 86400 % 3600) 60 (by norm_num),
    JSNumber.floor_div_natCast n 86400 (by norm_num),
    JSNumber.floor_div_natCast (n % 86400) 3600 (by norm_num),
    JSNumber.floor_div_natCast (n % 86400 % 3600) 60 (by norm_num),
    JSNumber.gt_zero_natCast, uLang.pad2_natCast _ hh, uLang.pad2_natCast _ hm,
    uLang.pad2_natCast _ hs, JSNumber.toString_natCast]
  simp only [clockText, String.append_assoc, String.append_empty, decide_eq_true_eq]

theorem clockText_length (hh mm ss : ℕ) : (clockText hh mm ss).length = 8 := by
  have c : ":".length = 1 := rfl
  simp [clockText, twoDigits, String.length_append, c]

theorem parseClock_clockText (hh mm ss : ℕ) (h1 : hh < 100) (h2 : mm < 100) (h3 : ss < 100) :
    parseClock (clockText hh mm ss) = some (hh, mm, ss) := by
  have e : (clockText hh mm ss).data =
      [Nat.digitChar (hh / 10), Nat.digitChar (hh % 10), ':',
        Nat.digitChar (mm / 10), Nat.digitChar (mm % 10), ':',
        Nat.digitChar (ss / 10), Nat.digitChar (ss % 10)] := by
    simp [clockText, twoDigits, String.data_append]
  unfold parseClock
  rw [e]
  simp only [and_self, if_true]
  rw [digitValue_digitChar _ (by omega), digitValue_digitChar _ (by omega),
    digitValue_digitChar _ (by omega), digitValue_digitChar _ (by omega),
    digitValue_digitChar _ (by omega), digitValue_digitChar _ (by omega)]
  simp only [Option.some_bind, Option.bind_eq_bind, Option.pure_def]
  congr 2
  · omega
  · congr 1 <;> omega

theorem uLang.getLocaleDuration_lt_day (self : uLang) (n : ℕ) (h : n < 86400) :
    self.getLocaleDuration (JSNumber.rat (n : ℚ)) =
      Except.ok (clockText (n / 3600) (n % 3600 / 60) (n % 60)) := by
  have h0 : ¬ (0 < n / 86400) := by omega
  have h1 : n % 86400 = n := Nat.mod_eq_of_lt h
  have h2 : n % 3600 % 60 = n % 60 := by omega
  rw [uLang.getLocaleDuration_natCast, if_neg h0, h1, h2]
  simp only [pure_bind, String.empty_append]
  rfl

/-- C3: for every integer duration `0 ≤ s < 86400` and every instance
(whatever its config and strings, a `null` config included),
`getLocaleDuration(s)` returns the 8-character text `HH:MM:SS` of three
two-digit fields with `HH ≤ 23`, `MM ≤ 59`, `SS ≤ 59` and
`3600*HH + 60*MM + SS = s`; parsing the text gives the fields back. -/
theorem getLocaleDuration_below_one_day (self : uLang) (s : ℤ)
    (h0 : 0 ≤ s) (h1 : s < 86400) :
    ∃ hh mm ss : ℕ, hh ≤ 23 ∧ mm ≤ 59 ∧ ss ≤ 59 ∧
      3600 * (hh : ℤ) + 60 * (mm : ℤ) + (ss : ℤ) = s ∧
      self.getLocaleDuration (JSNumber.rat (s : ℚ)) = Except.ok (clockText hh mm ss) ∧
      (clockText hh mm ss).length = 8 ∧
      parseClock (clockText hh mm ss) = some (hh, mm, ss) := by
  lift s to ℕ using h0
  have hn : s < 86400 := by exact_mod_cast h1
  refine ⟨s / 3600, s % 3600 / 60, s % 60, by omega, by omega, by omega, by omega, ?_,
    clockText_length _ _ _, parseClock_clockText _ _ _ (by omega) (by omega) (by omega)⟩
  rw [Int.cast_natCast]
  exact uLang.getLocaleDuration_lt_day self s hn

/-- The test `should return localized time duration`: 12345 gives
`03:25:45`, also on an instance that was never initialised. -/
theorem getLocaleDuration_below_one_day_witness :
    (0 : ℤ) ≤ 12345 ∧ (12345 : ℤ) < 86400 ∧
      uLang.new.getLocaleDuration (JSNumber.rat 12345) = Except.ok "03:25:45" := by
  obtain ⟨hh, mm, ss, b1, b2, b3, e, h, _, _⟩ :=
    getLocaleDuration_below_one_day uLang.new 12345 (by decide) (by decide)
  have e1 : hh = 3 := by omega
  have e2 : mm = 25 := by omega
  have e3 : ss = 45 := by omega
  subst e1 e2 e3
  refine ⟨by decide, by decide, ?_⟩
  have c : ((12345 : ℤ) : ℚ) = 12345 := by norm_num
  rw [c] at h
  rw [h]
  rfl

theorem mock_unit_unitDay : mockLang.unit "unitDay" = Except.ok (JSValue.string "d") := rfl

/-! ## Converters with a unit -/

theorem JSNumber.toString_1188 : (JSNumber.rat 1188).toString = "1188" := by
  have h : (1188 : ℚ) = ((1188 : ℕ) : ℚ) := by norm_num
  rw [h, JSNumber.toString_natCast]
  rfl

theorem JSNumber.toString_1300 : (JSNumber.rat 1300).toString = "1300" := by
  have h : (1300 : ℚ) = ((1300 : ℕ) : ℚ) := by norm_num
  rw [h, JSNumber.toString_natCast]
  rfl

theorem JSNumber.fracDigits_succ (fuel : ℕ) (r : ℚ) (h : r ≠ 0) :
    JSNumber.fracDigits (fuel + 1) r =
      Nat.digitChar ⌊r * 10⌋.toNat :: JSNumber.fracDigits fuel (Int.fract (r * 10)) := by
  simp [JSNumber.fracDigits, h]

theorem JSNumber.fracDigits_zero (fuel : ℕ) : JSNumber.fracDigits fuel 0 = [] := by
  cases fuel <;> simp [JSNumber.fracDigits]

theorem JSNumber.toString_055 : (JSNumber.rat (55 / 100)).toString = "0.55" := by
  have h0 : ¬ ((55 / 100 : ℚ) < 0) := by norm_num
  have h1 : |(55 / 100 : ℚ)| = 55 / 100 := abs_of_nonneg (by norm_num)
  have h2 : ⌊(55 / 100 : ℚ)⌋ = 0 := by norm_num
  have h3 : Int.fract (55 / 100 : ℚ) = 55 / 100 := by rw [Int.fract, h2]; norm_num
  have h4 : ⌊(55 / 100 : ℚ) * 10⌋ = 5 := by norm_num
  have h5 : Int.fract ((55 / 100 : ℚ) * 10) = 5 / 10 := by rw [Int.fract, h4]; norm_num
  have h6 : ⌊(5 / 10 : ℚ) * 10⌋ = 5 := by norm_num
  have h7 : Int.fract ((5 / 10 : ℚ) * 10) = 0 := by rw [Int.fract, h6]; norm_num
  simp only [JSNumber.toString, h1, if_neg h0, h2, h3]
  rw [JSNumber.fracDigits_succ _ _ (by norm_num), h4, h5,
    JSNumber.fracDigits_succ _ _ (by norm_num), h6, h7, JSNumber.fracDigits_zero]
  rfl

theorem mock_getLocaleSpeed (stringToNumber : String → JSNumber) :
    mockLang.getLocaleSpeed stringToNumber (JSNumber.rat 1000) false =
      Except.ok (JSValue.number (JSNumber.rat 1188)) := by
  have h := uLang.getLocaleSpeed_false stringToNumber mockStrings mockConfig 1000 (33 / 100) rfl
  have e : ((⌊(1000 : ℚ) * (33 / 100) * 360 + 1 / 2⌋ : ℤ) : ℚ) / 100 = 1188 := by norm_num
  rw [e] at h
  exact h

theorem mock_getLocaleDistanceMajor (stringToNumber : String → JSNumber) :
    mockLang.getLocaleDistanceMajor stringToNumber (JSNumber.rat 1000) false =
      Except.ok (JSValue.number (JSNumber.rat (55 / 100))) := by
  have h := uLang.getLocaleDistanceMajor_false stringToNumber mockStrings mockConfig 1000
    (55 / 100) rfl
  have e : ((⌊(1000 : ℚ) * (55 / 100) / 10 + 1 / 2⌋ : ℤ) : ℚ) / 100 = 55 / 100 := by norm_num
  rw [e] at h
  exact h

theorem mock_getLocaleDistance (stringToNumber : String → JSNumber) :
    mockLang.getLocaleDistance stringToNumber (JSNumber.rat 1000) false =
      Except.ok (JSValue.number (JSNumber.rat 1300)) := by
  have h := uLang.getLocaleDistance_false stringToNumber mockStrings mockConfig 1000
    (13 / 10) rfl
  have e : ((⌊(1000 : ℚ) * (13 / 10) * 100 + 1 / 2⌋ : ℤ) : ℚ) / 100 = 1300 := by norm_num
  rw [e] at h
  exact h

theorem appendsUnit_getLocaleSpeed (stringToNumber : String → JSNumber) :
    AppendsUnit (uLang.getLocaleSpeed stringToNumber) "unitSpeed" "factorSpeed" := by
  intro self x
  obtain ⟨strings, config⟩ := self
  refine ⟨?_, fun e h => ?_, fun hc => ?_, fun msg h => ?_, fun _ _ _ _ h => ?_⟩
  · cases config <;> rfl
  · cases config with
    | none => rw [← h]; rfl
    | some c =>
      simp only [uLang.getLocaleSpeed, h]
      rfl
  · cases config with
    | none => exact absurd rfl hc
    | some c => exact ⟨_, rfl⟩
  · cases config <;> cases h
  · simp only [uLang.getLocaleSpeed, h]
    rfl

theorem appendsUnit_getLocaleDistanceMajor (stringToNumber : String → JSNumber) :
    AppendsUnit (uLang.getLocaleDistanceMajor stringToNumber) "unitDistanceMajor"
      "factorDistanceMajor" := by
  intro self x
  obtain ⟨strings, config⟩ := self
  refine ⟨?_, fun e h => ?_, fun hc => ?_, fun msg h => ?_, fun _ _ _ _ h => ?_⟩
  · cases config <;> rfl
  · cases config with
    | none => rw [← h]; rfl
    | some c =>
      simp only [uLang.getLocaleDistanceMajor, h]
      rfl
  · cases config with
    | none => exact absurd rfl hc
    | some c => exact ⟨_, rfl⟩
  · cases config <;> cases h
  · simp only [uLang.getLocaleDistanceMajor, h]
    rfl

theorem appendsUnit_getLocaleDistance (stringToNumber : String → JSNumber) :
    AppendsUnit (uLang.getLocaleDistance stringToNumber) "unitDistance" "factorDistance" := by
  intro self x
  obtain ⟨strings, config⟩ := self
  refine ⟨?_, fun e h => ?_, fun hc => ?_, fun msg h => ?_, fun _ _ _ _ h => ?_⟩
  · cases config <;> rfl
  · cases config with
    | none => rw [← h]; rfl
    | some c =>
      simp only [uLang.getLocaleDistance, h]
      rfl
  · cases config with
    | none => exact absurd rfl hc
    | some c => exact ⟨_, rfl⟩
  · cases config <;> cases h
  · simp only [uLang.getLocaleDistance, h]
    rfl

theorem mock_getLocaleDistance_withUnit (stringToNumber : String → JSNumber) :
    mockLang.getLocaleDistance stringToNumber (JSNumber.rat 1000) true =
      Except.ok (JSValue.string "1300 jo") := by
  rw [(appendsUnit_getLocaleDistance stringToNumber mockLang (JSNumber.rat 1000)).1,
    mock_getLocaleDistance]
  have u : mockLang.unit "unitDistance" = Except.ok (JSValue.string "jo") := rfl
  rw [u]
  change Except.ok (JSValue.string ((JSNumber.rat 1300).toString ++ " " ++ "jo")) = _
  rw [JSNumber.toString_1300]
  rfl

theorem mock_getLocaleSpeed_withUnit (stringToNumber : String → JSNumber) :
    mockLang.getLocaleSpeed stringToNumber (JSNumber.rat 1000) true =
      Except.ok (JSValue.string "1188 jp") := by
  rw [(appendsUnit_getLocaleSpeed stringToNumber mockLang (JSNumber.rat 1000)).1,
    mock_getLocaleSpeed]
  have u : mockLang.unit "unitSpeed" = Except.ok (JSValue.string "jp") := rfl
  rw [u]
  change Except.ok (JSValue.string ((JSNumber.rat 1188).toString ++ " " ++ "jp")) = _
  rw [JSNumber.toString_1188]
  rfl

theorem mock_getLocaleDistanceMajor_withUnit (stringToNumber : String → JSNumber) :
    mockLang.getLocaleDistanceMajor stringToNumber (JSNumber.rat 1000) true =
      Except.ok (JSValue.string "0.55 jo / 1000") := by
  rw [(appendsUnit_getLocaleDistanceMajor stringToNumber mockLang (JSNumber.rat 1000)).1,
    mock_getLocaleDistanceMajor]
  have u : mockLang.unit "unitDistanceMajor" = Except.ok (JSValue.string "jo / 1000") := rfl
  rw [u]
  change Except.ok (JSValue.string ((JSNumber.rat (55 / 100)).toString ++ " " ++
    "jo / 1000")) = _
  rw [JSNumber.toString_055]
  rfl

/-- C8: for every input, flag and instance, `getLocaleAltitude` and
`getLocaleAccuracy` produce exactly the result of `getLocaleDistance` (the
same value, text or error); on the fixture of the tests the altitude and the
accuracy of 1000 with `factorDistance` 1.3 are 1300 and `1300 jo`. -/
theorem altitude_accuracy_are_distance (stringToNumber : String → JSNumber)
    (self : uLang) (m : JSNumber) (withUnit : Bool) :
    self.getLocaleAltitude stringToNumber m withUnit =
      self.getLocaleDistance stringToNumber m withUnit ∧
    self.getLocaleAccuracy stringToNumber m withUnit =
      self.getLocaleDistance stringToNumber m withUnit ∧
    mockLang.getLocaleAltitude stringToNumber (JSNumber.rat 1000) false =
      Except.ok (JSValue.number (JSNumber.rat 1300)) ∧
    mockLang.getLocaleAltitude stringToNumber (JSNumber.rat 1000) true =
      Except.ok (JSValue.string "1300 jo") ∧
    mockLang.getLocaleAccuracy stringToNumber (JSNumber.rat 1000) false =
      Except.ok (JSValue.number (JSNumber.rat 1300)) ∧
    mockLang.getLocaleAccuracy stringToNumber (JSNumber.rat 1000) true =
      Except.ok (JSValue.string "1300 jo") :=
  ⟨rfl, rfl, mock_getLocaleDistance stringToNumber,
    mock_getLocaleDistance_withUnit stringToNumber,
    mock_getLocaleDistance stringToNumber, mock_getLocaleDistance_withUnit stringToNumber⟩

/-- C9: each of `getLocaleSpeed`, `getLocaleDistanceMajor` and
`getLocaleDistance` satisfies `AppendsUnit` with its unit (`unitSpeed`,
`unitDistanceMajor`, `unitDistance`): with `withUnit = true` the result is
the text of the number returned with `withUnit = false`, one space and the
unit; a failing unit lookup fails the converter with the same error; with
`withUnit = false` the result is a number that depends on neither the
strings table nor the unit entries, and no `Error` of the lookups is raised.
On the fixture of the tests the three texts for 1000 are `1188 jp`,
`0.55 jo / 1000` and `1300 jo`. -/
theorem converters_append_unit (stringToNumber : String → JSNumber) :
    AppendsUnit (uLang.getLocaleSpeed stringToNumber) "unitSpeed" "factorSpeed" ∧
    AppendsUnit (uLang.getLocaleDistanceMajor stringToNumber) "unitDistanceMajor"
      "factorDistanceMajor" ∧
    AppendsUnit (uLang.getLocaleDistance stringToNumber) "unitDistance" "factorDistance" ∧
    mockLang.getLocaleSpeed stringToNumber (JSNumber.rat 1000) true =
      Except.ok (JSValue.string "1188 jp") ∧
    mockLang.getLocaleDistanceMajor stringToNumber (JSNumber.rat 1000) true =
      Except.ok (JSValue.string "0.55 jo / 1000") ∧
    mockLang.getLocaleDistance stringToNumber (JSNumber.rat 1000) true =
      Except.ok (JSValue.string "1300 jo") :=
  ⟨appendsUnit_getLocaleSpeed stringToNumber,
    appendsUnit_getLocaleDistanceMajor stringToNumber,
    appendsUnit_getLocaleDistance stringToNumber,
    mock_getLocaleSpeed_withUnit stringToNumber,
    mock_getLocaleDistanceMajor_withUnit stringToNumber,
    mock_getLocaleDistance_withUnit stringToNumber⟩

/-! ## Rounding to the nearest double -/

theorem Float64.nearestEven_eq (z : ℚ) (n : ℤ) (h : |z - n| < 1 / 2) :
    Float64.nearestEven z = n := by
  have h1 := Int.floor_le z
  have h2 := Int.lt_floor_add_one z
  obtain ⟨h3, h4⟩ := abs_lt.mp h
  unfold Float64.nearestEven
  split_ifs with c1 c2 c3
  · have a1 : ((n : ℤ) : ℚ) < (⌊z⌋ : ℚ) + 1 := by linarith
    have a2 : ((⌊z⌋ : ℤ) : ℚ) < (n : ℚ) + 1 := by linarith
    have b1 : n < ⌊z⌋ + 1 := by exact_mod_cast a1
    have b2 : ⌊z⌋ < n + 1 := by exact_mod_cast a2
    omega
  · have a1 : ((n : ℤ) : ℚ) < (⌊z⌋ : ℚ) + 2 := by linarith
    have a2 : ((⌊z⌋ : ℤ) : ℚ) < (n : ℚ) := by linarith
    have b1 : n < ⌊z⌋ + 2 := by exact_mod_cast a1
    have b2 : ⌊z⌋ < n := by exact_mod_cast a2
    omega
  · exfalso
    have e : z - ⌊z⌋ = 1 / 2 := le_antisymm (not_lt.mp c2) (not_lt.mp c1)
    have a1 : ((n : ℤ) : ℚ) < (⌊z⌋ : ℚ) + 1 := by linarith
    have a2 : ((⌊z⌋ : ℤ) : ℚ) < (n : ℚ) := by linarith
    have b1 : n < ⌊z⌋ + 1 := by exact_mod_cast a1
    have b2 : ⌊z⌋ < n := by exact_mod_cast a2
    omega
  · exfalso
    have e : z - ⌊z⌋ = 1 / 2 := le_antisymm (not_lt.mp c2) (not_lt.mp c1)
    have a1 : ((n : ℤ) : ℚ) < (⌊z⌋ : ℚ) + 1 := by linarith
    have a2 : ((⌊z⌋ : ℤ) : ℚ) < (n : ℚ) := by linarith
    have b1 : n < ⌊z⌋ + 1 := by exact_mod_cast a1
    have b2 : ⌊z⌋ < n := by exact_mod_cast a2
    omega

theorem Float64.abs_nearestEven_sub_le (z : ℚ) :
    |(Float64.nearestEven z : ℚ) - z| ≤ 1 / 2 := by
  have h1 := Int.floor_le z
  have h2 := Int.lt_floor_add_one z
  unfold Float64.nearestEven
  rw [abs_le]
  split_ifs with c1 c2 c3
  · constructor <;> linarith
  · push_cast
    constructor <;> linarith
  · have e : z - ⌊z⌋ = 1 / 2 := le_antisymm (not_lt.mp c2) (not_lt.mp c1)
    constructor <;> linarith
  · have e : z - ⌊z⌋ = 1 / 2 := le_antisymm (not_lt.mp c2) (not_lt.mp c1)
    push_cast
    constructor <;> linarith

theorem Float64.log_eq (x : ℚ) (e : ℤ) (hx : 0 < x) (h1 : (2 : ℚ) ^ e ≤ x)
    (h2 : x < (2 : ℚ) ^ (e + 1)) : Int.log 2 x = e := by
  have a1 : e ≤ Int.log 2 x := by
    rw [← Int.zpow_le_iff_le_log (by norm_num) hx]
    exact_mod_cast h1
  have a2 : Int.log 2 x < e + 1 := by
    rw [← Int.lt_zpow_iff_log_lt (by norm_num) hx]
    exact_mod_cast h2
  omega

theorem Float64.ulp_eq (x : ℚ) (e : ℤ) (hx : x ≠ 0) (h1 : (2 : ℚ) ^ e ≤ |x|)
    (h2 : |x| < (2 : ℚ) ^ (e + 1)) (he : -1022 ≤ e) :
    Float64.ulp x = (2 : ℚ) ^ (e - 52) := by
  unfold Float64.ulp
  rw [Float64.log_eq |x| e (abs_pos.mpr hx) h1 h2, max_eq_left he]

/-- The double nearest to `x`, from the binade `e` of `x` and an integer
significand `n` less than one half away from `x / 2 ^ (e - 52)`. -/
theorem Float64.ofRat_eq (x : ℚ) (e n : ℤ) (hx : x ≠ 0) (h1 : (2 : ℚ) ^ e ≤ |x|)
    (h2 : |x| < (2 : ℚ) ^ (e + 1)) (he : -1022 ≤ e)
    (hn : |x / (2 : ℚ) ^ (e - 52) - n| < 1 / 2)
    (hfin : |(n : ℚ) * (2 : ℚ) ^ (e - 52)| < (2 : ℚ) ^ (1024 : ℕ)) :
    Float64.ofRat x = Float64.fin ((n : ℚ) * (2 : ℚ) ^ (e - 52)) := by
  unfold Float64.ofRat
  rw [if_neg hx, Float64.ulp_eq x e hx h1 h2 he, Float64.nearestEven_eq _ n hn,
    if_neg (not_le.mpr hfin)]

/-- The rounding of a positive number, with the significand bracketed. -/
theorem Float64.ofRat_pos (x : ℚ) (e n : ℤ) (value : ℚ) (hx : 0 < x)
    (h1 : (2 : ℚ) ^ e ≤ x) (h2 : x < (2 : ℚ) ^ (e + 1)) (he : -1022 ≤ e)
    (hn1 : (n : ℚ) - 1 / 2 < x / (2 : ℚ) ^ (e - 52))
    (hn2 : x / (2 : ℚ) ^ (e - 52) < (n : ℚ) + 1 / 2)
    (hv : value = (n : ℚ) * (2 : ℚ) ^ (e - 52))
    (hfin : value < (2 : ℚ) ^ (1024 : ℕ)) :
    Float64.ofRat x = Float64.fin value := by
  have hp : (0 : ℚ) < (2 : ℚ) ^ (e - 52) := by positivity
  have hq : (0 : ℚ) < x / (2 : ℚ) ^ (e - 52) := div_pos hx hp
  have hn0 : (0 : ℚ) ≤ (n : ℚ) := by
    by_contra hneg
    have a1 : (n : ℚ) < 0 := not_le.mp hneg
    have a2 : n < 0 := by exact_mod_cast a1
    have a3 : n ≤ -1 := by omega
    have a4 : (n : ℚ) ≤ -1 := by exact_mod_cast a3
    linarith
  rw [hv]
  apply Float64.ofRat_eq x e n (ne_of_gt hx)
  · rwa [abs_of_pos hx]
  · rwa [abs_of_pos hx]
  · exact he
  · rw [abs_lt]
    constructor <;> linarith
  · rw [abs_of_nonneg (mul_nonneg hn0 (le_of_lt hp)), ← hv]
    exact hfin

/-- A natural number below `2 ^ 53` is a double. -/
theorem Float64.ofRat_natCast (n : ℕ) (h : n < 2 ^ 53) :
    Float64.ofRat (n : ℚ) = Float64.fin (n : ℚ) := by
  rcases Nat.eq_zero_or_pos n with h0 | hpos
  · subst h0
    simp [Float64.ofRat]
  · have hx : (0 : ℚ) < (n : ℚ) := by exact_mod_cast hpos
    have hlog1 : (0 : ℤ) ≤ Int.log 2 (n : ℚ) := by
      rw [← Int.zpow_le_iff_le_log (by norm_num) hx]
      have : (1 : ℚ) ≤ (n : ℚ) := by exact_mod_cast hpos
      simpa using this
    have hlog2 : Int.log 2 (n : ℚ) < 53 := by
      rw [← Int.lt_zpow_iff_log_lt (by norm_num) hx]
      have : (n : ℚ) < (2 : ℚ) ^ (53 : ℕ) := by exact_mod_cast h
      exact_mod_cast this
    obtain ⟨m, hm⟩ : ∃ m : ℕ, (m : ℤ) = 52 - Int.log 2 (n : ℚ) :=
      ⟨(52 - Int.log 2 (n : ℚ)).toNat, Int.toNat_of_nonneg (by omega)⟩
    have hb1 : ((2 : ℕ) : ℚ) ^ Int.log 2 (n : ℚ) ≤ (n : ℚ) :=
      Int.zpow_log_le_self (by norm_num) hx
    have hb2 : (n : ℚ) < ((2 : ℕ) : ℚ) ^ (Int.log 2 (n : ℚ) + 1) :=
      Int.lt_zpow_succ_log_self (by norm_num) _
    have hexp : Int.log 2 (n : ℚ) - 52 = -(m : ℤ) := by omega
    have hpow : (2 : ℚ) ^ (Int.log 2 (n : ℚ) - 52) = ((2 : ℚ) ^ m)⁻¹ := by
      rw [hexp, zpow_neg, zpow_natCast]
    have hpos2 : (0 : ℚ) < (2 : ℚ) ^ m := by positivity
    have hdiv : (n : ℚ) / (2 : ℚ) ^ (Int.log 2 (n : ℚ) - 52) = ((n * 2 ^ m : ℕ) : ℤ) := by
      rw [hpow, div_inv_eq_mul]
      push_cast
      ring
    have hval : (((n * 2 ^ m : ℕ) : ℤ) : ℚ) * (2 : ℚ) ^ (Int.log 2 (n : ℚ) - 52) = (n : ℚ) := by
      rw [hpow]
      push_cast
      field_simp
    have key := Float64.ofRat_eq (n : ℚ) (Int.log 2 (n : ℚ)) ((n * 2 ^ m : ℕ) : ℤ)
      (ne_of_gt hx)
      (by rw [abs_of_pos hx]; exact_mod_cast hb1)
      (by rw [abs_of_pos hx]; exact_mod_cast hb2)
      (by omega)
      (by rw [hdiv]; simp)
      (by
        rw [hval, abs_of_pos hx]
        have : (n : ℚ) < (2 : ℚ) ^ (53 : ℕ) := by exact_mod_cast h
        calc (n : ℚ) < (2 : ℚ) ^ (53 : ℕ) := this
          _ ≤ (2 : ℚ) ^ (1024 : ℕ) := pow_le_pow_right₀ (by norm_num) (by norm_num))
    rw [key, hval]

/-- The rounding error of a positive number in the normal range: at most the
fraction `2 ^ (-53)` of it. -/
theorem Float64.ofRat_error (x : ℚ) (hx : 0 < x) (hlow : (2 : ℚ) ^ (-1022 : ℤ) ≤ x)
    (hhigh : x < (2 : ℚ) ^ (1023 : ℕ)) :
    ∃ y : ℚ, Float64.ofRat x = Float64.fin y ∧ |y - x| ≤ x / 2 ^ 53 := by
  have hb1 : ((2 : ℕ) : ℚ) ^ Int.log 2 x ≤ x := Int.zpow_log_le_self (by norm_num) hx
  have hb2 : x < ((2 : ℕ) : ℚ) ^ (Int.log 2 x + 1) := Int.lt_zpow_succ_log_self (by norm_num) _
  have hb1' : (2 : ℚ) ^ Int.log 2 x ≤ x := by exact_mod_cast hb1
  have he : (-1022 : ℤ) ≤ Int.log 2 x := by
    rw [← Int.zpow_le_iff_le_log (by norm_num) hx]
    exact_mod_cast hlow
  have hulp : Float64.ulp x = (2 : ℚ) ^ (Int.log 2 x - 52) := by
    unfold Float64.ulp
    rw [abs_of_pos hx, max_eq_left he]
  have hp : (0 : ℚ) < (2 : ℚ) ^ (Int.log 2 x - 52) := by positivity
  have hsplit : (2 : ℚ) ^ (Int.log 2 x - 52) = (2 : ℚ) ^ Int.log 2 x / 2 ^ 52 := by
    rw [zpow_sub₀ (by norm_num)]
    norm_num
  have herr := Float64.abs_nearestEven_sub_le (x / (2 : ℚ) ^ (Int.log 2 x - 52))
  have hdist : |(Float64.nearestEven (x / (2 : ℚ) ^ (Int.log 2 x - 52)) : ℚ) *
      (2 : ℚ) ^ (Int.log 2 x - 52) - x| ≤ x / 2 ^ 53 := by
    have e1 : (Float64.nearestEven (x / (2 : ℚ) ^ (Int.log 2 x - 52)) : ℚ) *
        (2 : ℚ) ^ (Int.log 2 x - 52) - x =
        ((Float64.nearestEven (x / (2 : ℚ) ^ (Int.log 2 x - 52)) : ℚ) -
          x / (2 : ℚ) ^ (Int.log 2 x - 52)) * (2 : ℚ) ^ (Int.log 2 x - 52) := by
      field_simp
    rw [e1, abs_mul, abs_of_pos hp]
    calc _ ≤ 1 / 2 * (2 : ℚ) ^ (Int.log 2 x - 52) :=
          mul_le_mul_of_nonneg_right herr (le_of_lt hp)
      _ = (2 : ℚ) ^ Int.log 2 x / 2 ^ 53 := by rw [hsplit]; ring
      _ ≤ x / 2 ^ 53 := by
          apply div_le_div_of_nonneg_right hb1' (by positivity)
  refine ⟨_, ?_, hdist⟩
  unfold Float64.ofRat
  rw [if_neg (ne_of_gt hx), hulp, if_neg]
  rw [not_le]
  obtain ⟨h3, h4⟩ := abs_le.mp hdist
  have hy : (Float64.nearestEven (x / (2 : ℚ) ^ (Int.log 2 x - 52)) : ℚ) *
      (2 : ℚ) ^ (Int.log 2 x - 52) ≤ x + x / 2 ^ 53 := by linarith
  have hy0 : 0 ≤ (Float64.nearestEven (x / (2 : ℚ) ^ (Int.log 2 x - 52)) : ℚ) *
      (2 : ℚ) ^ (Int.log 2 x - 52) := by
    have : x / 2 ^ 53 ≤ x := by
      apply div_le_self (le_of_lt hx)
      norm_num
    linarith
  rw [abs_of_nonneg hy0]
  have hsmall : x / 2 ^ 53 < x := by
    apply div_lt_self hx
    norm_num
  calc _ ≤ x + x / 2 ^ 53 := hy
    _ < (2 : ℚ) ^ (1023 : ℕ) + (2 : ℚ) ^ (1023 : ℕ) := by linarith
    _ = (2 : ℚ) ^ (1024 : ℕ) := by ring

/-- For naturals below `2 ^ 53` the rounding of the quotient does not change
its integer part: `Math.floor(a / b)` is the integer quotient. -/
theorem Float64.floor_div_safe (a b : ℕ) (hb : 0 < b) (ha : a < 2 ^ 53)
    (hb2 : b < 2 ^ 53) :
    ((Float64.fin (a : ℚ)).div (Float64.fin (b : ℚ))).floor =
      Float64.fin ((a / b : ℕ) : ℚ) := by
  have hbq : (0 : ℚ) < (b : ℚ) := by exact_mod_cast hb
  have hb0 : (b : ℚ) ≠ 0 := ne_of_gt hbq
  have hdecomp : (a : ℚ) = ((a / b : ℕ) : ℚ) * (b : ℚ) + ((a % b : ℕ) : ℚ) := by
    have := Nat.div_add_mod a b
    have h2 : (b : ℚ) * ((a / b : ℕ) : ℚ) + ((a % b : ℕ) : ℚ) = (a : ℚ) := by
      exact_mod_cast this
    linarith
  have hx : (a : ℚ) / (b : ℚ) = ((a / b : ℕ) : ℚ) + ((a % b : ℕ) : ℚ) / (b : ℚ) := by
    field_simp
    linarith
  simp only [Float64.div, if_neg hb0]
  rcases Nat.eq_zero_or_pos (a % b) with hr | hr
  · have hq : (a : ℚ) / (b : ℚ) = ((a / b : ℕ) : ℚ) := by
      rw [hx, hr]
      simp
    have hlt : a / b < 2 ^ 53 := lt_of_le_of_lt (Nat.div_le_self a b) ha
    rw [hq, Float64.ofRat_natCast _ hlt]
    simp only [Float64.floor, Int.floor_natCast, Int.cast_natCast]
  · have hrq : (1 : ℚ) ≤ ((a % b : ℕ) : ℚ) := by exact_mod_cast hr
    have hrb : ((a % b : ℕ) : ℚ) + 1 ≤ (b : ℚ) := by
      have := Nat.mod_lt a hb
      exact_mod_cast this
    have hapos : 0 < a := by
      rcases Nat.eq_zero_or_pos a with h0 | h0
      · subst h0
        simp at hr
      · exact h0
    have haq : (1 : ℚ) ≤ (a : ℚ) := by exact_mod_cast hapos
    have hxpos : (0 : ℚ) < (a : ℚ) / (b : ℚ) := div_pos (by linarith) hbq
    have hbq2 : (b : ℚ) < (2 : ℚ) ^ (53 : ℕ) := by exact_mod_cast hb2
    have haq2 : (a : ℚ) < (2 : ℚ) ^ (53 : ℕ) := by exact_mod_cast ha
    have hlow : (2 : ℚ) ^ (-1022 : ℤ) ≤ (a : ℚ) / (b : ℚ) := by
      have h1 : (2 : ℚ) ^ (-1022 : ℤ) ≤ ((2 : ℚ) ^ (53 : ℕ))⁻¹ := by
        rw [← zpow_natCast, ← zpow_neg]
        exact zpow_le_zpow_right₀ (by norm_num) (by norm_num)
      have h2 : ((2 : ℚ) ^ (53 : ℕ))⁻¹ ≤ (b : ℚ)⁻¹ := by
        rw [inv_le_inv₀ (by positivity) hbq]
        exact le_of_lt hbq2
      have h3 : (b : ℚ)⁻¹ ≤ (a : ℚ) / (b : ℚ) := by
        rw [div_eq_mul_inv]
        exact le_mul_of_one_le_left (le_of_lt (inv_pos.mpr hbq)) haq
      linarith
    have hhigh : (a : ℚ) / (b : ℚ) < (2 : ℚ) ^ (1023 : ℕ) := by
      have h1 : (a : ℚ) / (b : ℚ) ≤ (a : ℚ) := by
        apply div_le_self (by linarith)
        exact_mod_cast hb
      have h2 : (2 : ℚ) ^ (53 : ℕ) ≤ (2 : ℚ) ^ (1023 : ℕ) :=
        pow_le_pow_right₀ (by norm_num) (by norm_num)
      linarith
    obtain ⟨y, hy, herr⟩ := Float64.ofRat_error _ hxpos hlow hhigh
    have hsmall : (a : ℚ) / (b : ℚ) / 2 ^ 53 < 1 / (b : ℚ) := by
      rw [div_div, div_lt_div_iff₀ (by positivity) hbq]
      nlinarith
    obtain ⟨h3, h4⟩ := abs_le.mp herr
    have hfrac1 : 1 / (b : ℚ) ≤ ((a % b : ℕ) : ℚ) / (b : ℚ) :=
      div_le_div_of_nonneg_right hrq (le_of_lt hbq)
    have hfrac2 : ((a % b : ℕ) : ℚ) / (b : ℚ) ≤ 1 - 1 / (b : ℚ) := by
      rw [le_sub_iff_add_le, ← add_div, div_le_one hbq]
      exact hrb
    rw [hy]
    simp only [Float64.floor]
    congr 1
    have hfl : ⌊y⌋ = ((a / b : ℕ) : ℤ) := by
      rw [Int.floor_eq_iff, Int.cast_natCast]
      constructor <;> linarith
    rw [hfl, Int.cast_natCast]

theorem Float64.rem_of_natCast (a b : ℕ) (hb : b ≠ 0) :
    (Float64.fin (a : ℚ)).rem (Float64.fin (b : ℚ)) = Float64.fin ((a % b : ℕ) : ℚ) := by
  have hb0 : (b : ℚ) ≠ 0 := Nat.cast_ne_zero.mpr hb
  have h0 : (0 : ℚ) ≤ (a : ℚ) / (b : ℚ) := by positivity
  simp only [Float64.rem, if_neg hb0, if_pos h0, JSNumber.floor_div_natCast_aux]
  congr 1
  have h1 := Nat.mod_add_div a b
  have h2 : ((a % b : ℕ) : ℚ) + (b : ℚ) * ((a / b : ℕ) : ℚ) = (a : ℚ) := by exact_mod_cast h1
  rw [Int.cast_natCast]
  linarith

theorem Float64.gt_zero_of_natCast (n : ℕ) :
    (Float64.fin (n : ℚ)).gt (Float64.fin 0) = decide (0 < n) := by
  simp [Float64.gt]

/-! ## Durations in double arithmetic -/

theorem plainNumberToString_printsIntegers : PrintsIntegers plainNumberToString := by
  intro n _
  exact JSNumber.toString_natCast n

theorem uLang.pad64_natCast (numberToString : Float64 → String)
    (hprint : PrintsIntegers numberToString) (n : ℕ) (h : n < 100) :
    uLang.pad64 numberToString (Float64.fin (n : ℚ)) = twoDigits n := by
  have h2 : n < 2 ^ 53 := lt_of_lt_of_le h (by norm_num)
  rw [uLang.pad64, hprint n h2, jsSlice_pad n h]

/-- The text that `getLocaleDuration` builds in double arithmetic from a
natural number of seconds whose day count, as computed, is `d`. -/
theorem uLang.getLocaleDuration64_of_days (numberToString : Float64 → String)
    (hprint : PrintsIntegers numberToString) (self : uLang) (n d : ℕ)
    (hd : ((Float64.fin (n : ℚ)).div (Float64.fin 86400)).floor = Float64.fin (d : ℚ))
    (hd2 : d < 2 ^ 53) :
    self.getLocaleDuration64 numberToString (Float64.fin (n : ℚ)) = (do
      let days ←
        if 0 < d then do
          let u ← self.unit "unitDay"
          pure (Nat.repr d ++ " " ++ u.toText64 numberToString ++ " ")
        else
          pure ""
      pure (days ++ clockText (n % 86400 / 3600) (n % 86400 % 3600 / 60)
        (n % 86400 % 3600 % 60))) := by
  have e1 : (86400 : ℚ) = ((86400 : ℕ) : ℚ) := by norm_num
  have e2 : (3600 : ℚ) = ((3600 : ℕ) : ℚ) := by norm_num
  have e3 : (60 : ℚ) = ((60 : ℕ) : ℚ) := by norm_num
  have hh : n % 86400 / 3600 < 100 := by omega
  have hm : n % 86400 % 3600 / 60 < 100 := by omega
  have hs : n % 86400 % 3600 % 60 < 100 := by omega
  have b1 : n % 86400 < 2 ^ 53 := lt_of_lt_of_le (Nat.mod_lt _ (by norm_num)) (by norm_num)
  have b2 : n % 86400 % 3600 < 2 ^ 53 :=
    lt_of_lt_of_le (Nat.mod_lt _ (by norm_num)) (by norm_num)
  unfold uLang.getLocaleDuration64
  simp only [hd]
  simp only [e2, e3]
  rw [e1, Float64.rem_of_natCast n 86400 (by norm_num),
    Float64.rem_of_natCast (n % 86400) 3600 (by norm_num),
    Float64.rem_of_natCast (n % 86400 % 3600) 60 (by norm_num),
    Float64.floor_div_safe (n % 86400) 3600 (by norm_num) b1 (by norm_num),
    Float64.floor_div_safe (n % 86400 % 3600) 60 (by norm_num) b2 (by norm_num),
    Float64.gt_zero_of_natCast, uLang.pad64_natCast _ hprint _ hh,
    uLang.pad64_natCast _ hprint _ hm, uLang.pad64_natCast _ hprint _ hs, hprint d hd2]
  simp only [clockText, String.append_assoc, String.append_empty, decide_eq_true_eq]

theorem uLang.getLocaleDuration64_natCast (numberToString : Float64 → String)
    (hprint : PrintsIntegers numberToString) (self : uLang) (n : ℕ) (hn : n < 2 ^ 53) :
    self.getLocaleDuration64 numberToString (Float64.fin (n : ℚ)) = (do
      let days ←
        if 0 < n / 86400 then do
          let u ← self.unit "unitDay"
          pure (Nat.repr (n / 86400) ++ " " ++ u.toText64 numberToString ++ " ")
        else
          pure ""
      pure (days ++ clockText (n % 86400 / 3600) (n % 86400 % 3600 / 60)
        (n % 86400 % 3600 % 60))) := by
  have e1 : (86400 : ℚ) = ((86400 : ℕ) : ℚ) := by norm_num
  apply uLang.getLocaleDuration64_of_days numberToString hprint self n (n / 86400)
  · rw [e1]
    exact Float64.floor_div_safe n 86400 (by norm_num) hn (by norm_num)
  · exact lt_of_le_of_lt (Nat.div_le_self n 86400) hn

theorem uLang.getLocaleDuration64_lt_day (numberToString : Float64 → String)
    (hprint : PrintsIntegers numberToString) (self : uLang) (n : ℕ) (h : n < 86400) :
    self.getLocaleDuration64 numberToString (Float64.fin (n : ℚ)) =
      Except.ok (clockText (n / 3600) (n % 3600 / 60) (n % 60)) := by
  have h0 : ¬ (0 < n / 86400) := by omega
  have h1 : n % 86400 = n := Nat.mod_eq_of_lt h
  have h2 : n % 3600 % 60 = n % 60 := by omega
  have hn : n < 2 ^ 53 := lt_of_lt_of_le h (by norm_num)
  rw [uLang.getLocaleDuration64_natCast numberToString hprint self n hn, if_neg h0, h1, h2]
  simp only [pure_bind, String.empty_append]
  rfl

theorem Float64.days_of_large_duration :
    ((Float64.fin ((1536911885898575872 : ℕ) : ℚ)).div (Float64.fin 86400)).floor =
      Float64.fin ((17788332012715 : ℕ) : ℚ) := by
  have h := Float64.ofRat_pos ((1536911885898575872 : ℚ) / 86400) 44 4553812995255040
    17788332012715 (by norm_num) (by norm_num) (by norm_num) (by norm_num) (by norm_num)
    (by norm_num) (by norm_num) (by norm_num)
  have hb : (86400 : ℚ) ≠ 0 := by norm_num
  simp only [Float64.div, if_neg hb]
  have c : (((1536911885898575872 : ℕ) : ℚ)) = (1536911885898575872 : ℚ) := by norm_num
  rw [c, h]
  simp only [Float64.floor]
  norm_num

/-- C4, counterexample: for the integer duration 1536911885898575872 (a
double) the quotient by 86400 is rounded to the double 17788332012715, one
more than `floor(s / 86400) = 17788332012714`, and the result is
`17788332012715 d 23:57:52`: the day count is not `floor(s / 86400)`, and
`86400 * d` alone is more than `s`, so that
`86400*d + 3600*HH + 60*MM + SS = s` fails. -/
theorem getLocaleDuration64_rounds_day_count :
    Float64.ofRat 1536911885898575872 = Float64.fin 1536911885898575872 ∧
    PrintsIntegers plainNumberToString ∧
    uLang.getLocaleDuration64 plainNumberToString mockLang
      (Float64.fin 1536911885898575872) = Except.ok "17788332012715 d 23:57:52" ∧
    (∀ numberToString : Float64 → String, PrintsIntegers numberToString →
      uLang.getLocaleDuration64 numberToString mockLang
        (Float64.fin 1536911885898575872) = Except.ok "17788332012715 d 23:57:52") ∧
    ⌊(1536911885898575872 : ℚ) / 86400⌋ = 17788332012714 ∧
    (1536911885898575872 : ℤ) < 86400 * 17788332012715 ∧
    86400 * (17788332012715 : ℤ) + 3600 * 23 + 60 * 57 + 52 ≠ 1536911885898575872 := by
  have general : ∀ numberToString : Float64 → String, PrintsIntegers numberToString →
      uLang.getLocaleDuration64 numberToString mockLang
        (Float64.fin 1536911885898575872) = Except.ok "17788332012715 d 23:57:52" := by
    intro numberToString hprint
    have c : (1536911885898575872 : ℚ) = ((1536911885898575872 : ℕ) : ℚ) := by norm_num
    rw [c, uLang.getLocaleDuration64_of_days numberToString hprint mockLang
      1536911885898575872 17788332012715 Float64.days_of_large_duration (by norm_num),
      if_pos (by norm_num), mock_unit_unitDay]
    rfl
  have hdouble := Float64.ofRat_pos (1536911885898575872 : ℚ) 60 6003562054291312
    1536911885898575872 (by norm_num) (by norm_num) (by norm_num) (by norm_num)
    (by norm_num) (by norm_num) (by norm_num) (by norm_num)
  exact ⟨hdouble, plainNumberToString_printsIntegers,
    general _ plainNumberToString_printsIntegers, general, by norm_num, by norm_num,
    by norm_num⟩

/-- C4, as amended: for every integer duration `s` with
`86400 ≤ s ≤ 2 ^ 53 - 1` (the safe integers, on which the quotients of the
code are rounded without effect) and every conversion of numbers to text
that prints the integers below `2 ^ 53` as their decimal digits,
`getLocaleDuration(s)` is the decimal text of `d = floor(s / 86400)`, a
space, `unit('unitDay')`, a space and `getLocaleDuration(s mod 86400)`,
failing with the error of the unit lookup when that fails; the rest is a
text `HH:MM:SS` with `86400*d + 3600*HH + 60*MM + SS = s`. From 0 to 86399
there is no day part: the result is a text that is the same on every
instance, also on one that configures no unit. -/
theorem getLocaleDuration64_from_one_day (numberToString : Float64 → String)
    (hprint : PrintsIntegers numberToString) (self : uLang) (s : ℤ) (h : 86400 ≤ s)
    (hsafe : s < 2 ^ 53) :
    (self.getLocaleDuration64 numberToString (Float64.fin (s : ℚ)) = do
      let u ← self.unit "unitDay"
      let rest ← self.getLocaleDuration64 numberToString
        (Float64.fin ((s % 86400 : ℤ) : ℚ))
      pure (Nat.repr (s / 86400).toNat ++ " " ++ u.toText64 numberToString ++ " " ++
        rest)) ∧
    (∀ e : JSError, self.unit "unitDay" = Except.error e →
      self.getLocaleDuration64 numberToString (Float64.fin (s : ℚ)) = Except.error e) ∧
    (∃ hh mm ss : ℕ, hh ≤ 23 ∧ mm ≤ 59 ∧ ss ≤ 59 ∧
      self.getLocaleDuration64 numberToString (Float64.fin ((s % 86400 : ℤ) : ℚ)) =
        Except.ok (clockText hh mm ss) ∧
      86400 * (s / 86400) + 3600 * (hh : ℤ) + 60 * (mm : ℤ) + (ss : ℤ) = s) ∧
    (∀ (s2 : ℕ) (other : uLang), s2 < 86400 →
      ∃ t : String,
        other.getLocaleDuration64 numberToString (Float64.fin (s2 : ℚ)) = Except.ok t ∧
        uLang.new.getLocaleDuration64 numberToString (Float64.fin (s2 : ℚ)) =
          Except.ok t) := by
  have h0 : 0 ≤ s := le_trans (by norm_num) h
  lift s to ℕ using h0
  have hn : 86400 ≤ s := by exact_mod_cast h
  have hs : s < 2 ^ 53 := by exact_mod_cast hsafe
  have hd : 0 < s / 86400 := Nat.div_pos hn (by norm_num)
  have hm : ((s : ℤ) % 86400) = ((s % 86400 : ℕ) : ℤ) := by omega
  have hq : ((s : ℤ) / 86400) = ((s / 86400 : ℕ) : ℤ) := by omega
  have hr := uLang.getLocaleDuration64_lt_day numberToString hprint self (s % 86400)
    (Nat.mod_lt _ (by norm_num))
  have e3 : s % 86400 % 3600 % 60 = s % 86400 % 60 := by omega
  have hmain : self.getLocaleDuration64 numberToString (Float64.fin (((s : ℕ) : ℤ) : ℚ)) = (do
      let u ← self.unit "unitDay"
      let rest ← self.getLocaleDuration64 numberToString
        (Float64.fin ((((s : ℕ) : ℤ) % 86400 : ℤ) : ℚ))
      pure (Nat.repr (((s : ℕ) : ℤ) / 86400).toNat ++ " " ++ u.toText64 numberToString ++
        " " ++ rest)) := by
    rw [hm, hq, Int.cast_natCast, Int.cast_natCast, Int.toNat_natCast, hr,
      uLang.getLocaleDuration64_natCast numberToString hprint self s hs, if_pos hd, e3]
    cases self.unit "unitDay" with
    | error e => rfl
    | ok u =>
      simp only [bind_assoc, pure_bind, String.append_assoc]
      rfl
  refine ⟨hmain, fun e he => ?_, ?_, fun s2 other h2 => ?_⟩
  · rw [hmain, he]
    rfl
  · refine ⟨s % 86400 / 3600, s % 86400 % 3600 / 60, s % 86400 % 60,
      by omega, by omega, by omega, ?_, by omega⟩
    rw [hm, Int.cast_natCast, hr]
  · exact ⟨_, uLang.getLocaleDuration64_lt_day numberToString hprint other s2 h2,
      uLang.getLocaleDuration64_lt_day numberToString hprint uLang.new s2 h2⟩

/-- The test `should return localized time duration with day unit`:
123456789 gives `1428 d 21:33:09`. -/
theorem getLocaleDuration64_from_one_day_witness :
    (86400 : ℤ) ≤ 123456789 ∧ (123456789 : ℤ) < 2 ^ 53 ∧
      uLang.getLocaleDuration64 plainNumberToString mockLang (Float64.fin 123456789) =
        Except.ok "1428 d 21:33:09" := by
  have h := (getLocaleDuration64_from_one_day plainNumberToString
    plainNumberToString_printsIntegers mockLang 123456789 (by norm_num) (by norm_num)).1
  have c1 : ((123456789 : ℤ) : ℚ) = 123456789 := by norm_num
  have c2 : (((123456789 : ℤ) % 86400 : ℤ) : ℚ) = ((77589 : ℕ) : ℚ) := by norm_num
  have c3 : ((123456789 : ℤ) / 86400).toNat = 1428 := by decide
  rw [c1, c2, c3, mock_unit_unitDay,
    uLang.getLocaleDuration64_lt_day plainNumberToString plainNumberToString_printsIntegers
      mockLang 77589 (by decide)] at h
  refine ⟨by norm_num, by norm_num, ?_⟩
  rw [h]
  rfl

/-! ## The error of a rounding -/

theorem Float64.ulp_pos (x : ℚ) : 0 < Float64.ulp x := by
  unfold Float64.ulp
  positivity

theorem Float64.ulp_le (x : ℚ) (hx : x ≠ 0) :
    Float64.ulp x ≤ |x| / 2 ^ 52 + 1 / 2 ^ 1074 := by
  have hpos : 0 < |x| := abs_pos.mpr hx
  have hb1 : ((2 : ℕ) : ℚ) ^ Int.log 2 |x| ≤ |x| := Int.zpow_log_le_self (by norm_num) hpos
  have hb2 : (2 : ℚ) ^ Int.log 2 |x| ≤ |x| := by exact_mod_cast hb1
  unfold Float64.ulp
  rcases le_total (-1022 : ℤ) (Int.log 2 |x|) with h | h
  · rw [max_eq_left h, zpow_sub₀ (by norm_num)]
    have e : (2 : ℚ) ^ (52 : ℤ) = 2 ^ 52 := by norm_num
    rw [e]
    have a1 : (2 : ℚ) ^ Int.log 2 |x| / 2 ^ 52 ≤ |x| / 2 ^ 52 :=
      div_le_div_of_nonneg_right hb2 (by positivity)
    have a2 : (0 : ℚ) ≤ 1 / 2 ^ 1074 := by positivity
    linarith
  · rw [max_eq_right h]
    have e : (2 : ℚ) ^ ((-1022 : ℤ) - 52) = 1 / 2 ^ 1074 := by
      rw [show ((-1022 : ℤ) - 52) = -((1074 : ℕ) : ℤ) by norm_num, zpow_neg, zpow_natCast]
      simp
    rw [e]
    have a2 : (0 : ℚ) ≤ |x| / 2 ^ 52 := by positivity
    linarith

/-- The rounding error: at most the fraction `2 ^ (-53)` of the number, or
half the distance `2 ^ (-1074)` of the subnormal doubles. -/
theorem Float64.ofRat_dist (x : ℚ) (hx : x ≠ 0) :
    |(Float64.nearestEven (x / Float64.ulp x) : ℚ) * Float64.ulp x - x| ≤
      |x| / 2 ^ 53 + 1 / 2 ^ 1075 := by
  have hp := Float64.ulp_pos x
  have herr := Float64.abs_nearestEven_sub_le (x / Float64.ulp x)
  have e1 : (Float64.nearestEven (x / Float64.ulp x) : ℚ) * Float64.ulp x - x =
      ((Float64.nearestEven (x / Float64.ulp x) : ℚ) - x / Float64.ulp x) * Float64.ulp x := by
    field_simp
  rw [e1, abs_mul, abs_of_pos hp]
  have h1 : |(Float64.nearestEven (x / Float64.ulp x) : ℚ) - x / Float64.ulp x| *
      Float64.ulp x ≤ 1 / 2 * Float64.ulp x := mul_le_mul_of_nonneg_right herr (le_of_lt hp)
  have h2 := Float64.ulp_le x hx
  have e2 : (|x| / 2 ^ 52 + 1 / 2 ^ 1074 : ℚ) / 2 = |x| / 2 ^ 53 + 1 / 2 ^ 1075 := by ring
  linarith

theorem Float64.ofRat_fin_error (x y : ℚ) (h : Float64.ofRat x = Float64.fin y) :
    |y - x| ≤ |x| / 2 ^ 53 + 1 / 2 ^ 1075 := by
  by_cases hx : x = 0
  · subst hx
    have e : Float64.ofRat 0 = Float64.fin 0 := by simp [Float64.ofRat]
    rw [e] at h
    have e2 : y = 0 := (Float64.fin.inj h).symm
    subst e2
    norm_num
  · unfold Float64.ofRat at h
    rw [if_neg hx] at h
    split_ifs at h with c
    have e2 := Float64.fin.inj h
    rw [← e2]
    exact Float64.ofRat_dist x hx

theorem Float64.ofRat_finite (x : ℚ) (hx : |x| ≤ 2 ^ 1023) :
    ∃ y : ℚ, Float64.ofRat x = Float64.fin y := by
  by_cases h0 : x = 0
  · exact ⟨0, by simp [Float64.ofRat, h0]⟩
  · refine ⟨(Float64.nearestEven (x / Float64.ulp x) : ℚ) * Float64.ulp x, ?_⟩
    unfold Float64.ofRat
    rw [if_neg h0, if_neg]
    rw [not_le]
    have hd := Float64.ofRat_dist x h0
    have h1 : |(Float64.nearestEven (x / Float64.ulp x) : ℚ) * Float64.ulp x| ≤
        |(Float64.nearestEven (x / Float64.ulp x) : ℚ) * Float64.ulp x - x| + |x| := by
      have := abs_add ((Float64.nearestEven (x / Float64.ulp x) : ℚ) * Float64.ulp x - x) x
      simpa using this
    have h2 : |x| / 2 ^ 53 ≤ (2 : ℚ) ^ 1023 / 2 ^ 53 :=
      div_le_div_of_nonneg_right hx (by positivity)
    have h3 : (2 : ℚ) ^ 1023 / 2 ^ 53 + 1 / 2 ^ 1075 + 2 ^ 1023 < 2 ^ (1024 : ℕ) := by norm_num
    linarith


theorem Float64.ofRat_fin_lt (x y : ℚ) (h : Float64.ofRat x = Float64.fin y) :
    |y| < 2 ^ 1024 := by
  unfold Float64.ofRat at h
  split_ifs at h with c1 c2
  · have e := Float64.fin.inj h
    rw [← e]
    norm_num
  · have e := Float64.fin.inj h
    rw [← e]
    exact not_le.mp c2

theorem Float64.abs_le_of_error (x y e : ℚ) (h : |y - x| ≤ e) : |y| ≤ |x| + e := by
  have := abs_sub_abs_le_abs_sub y x
  linarith

/-- The last two steps of a converter, `Math.round(q) / 100` for a double
`q`: the quotient is finite, and its error is that of one rounding. -/
theorem Float64.round_div_hundred (q : ℚ) (hq : |q| < 2 ^ 1024) :
    ∃ r : ℚ, Float64.ofRat (((⌊q + 1 / 2⌋ : ℤ) : ℚ) / 100) = Float64.fin r ∧
      |r - ((⌊q + 1 / 2⌋ : ℤ) : ℚ) / 100| ≤ (|q| + 1) / 100 / 2 ^ 53 + 1 / 2 ^ 1075 := by
  obtain ⟨b1, b2⟩ := JSNumber.round_near q
  have hk : |((⌊q + 1 / 2⌋ : ℤ) : ℚ)| ≤ |q| + 1 / 2 := by
    apply Float64.abs_le_of_error
    rw [abs_le]
    constructor <;> linarith
  have hk100 : |((⌊q + 1 / 2⌋ : ℤ) : ℚ) / 100| = |((⌊q + 1 / 2⌋ : ℤ) : ℚ)| / 100 := by
    rw [abs_div]
    norm_num
  have hsmall : |((⌊q + 1 / 2⌋ : ℤ) : ℚ) / 100| ≤ 2 ^ 1023 := by
    rw [hk100]
    have : ((2 : ℚ) ^ 1024 + 1 / 2) / 100 ≤ 2 ^ 1023 := by norm_num
    have h2 : |((⌊q + 1 / 2⌋ : ℤ) : ℚ)| / 100 ≤ ((2 : ℚ) ^ 1024 + 1 / 2) / 100 :=
      div_le_div_of_nonneg_right (by linarith) (by norm_num)
    linarith
  obtain ⟨r, hr⟩ := Float64.ofRat_finite _ hsmall
  refine ⟨r, hr, ?_⟩
  have herr := Float64.ofRat_fin_error _ r hr
  rw [hk100] at herr
  have h3 : |((⌊q + 1 / 2⌋ : ℤ) : ℚ)| / 100 / 2 ^ 53 ≤ (|q| + 1) / 100 / 2 ^ 53 := by
    apply div_le_div_of_nonneg_right _ (by positivity)
    apply div_le_div_of_nonneg_right _ (by norm_num)
    linarith
  linarith

/-- The error of a converter that rounds `a` to `p`, a multiple `c * p` to
`q`, `q` to the integer `k` and `k / 100` to `r`. -/
theorem Float64.converter_error (a p c q k r : ℚ) (hc : 0 < c) (hc2 : c ≤ 360)
    (h1 : |p - a| ≤ |a| / 2 ^ 53 + 1 / 2 ^ 1075)
    (h2 : |q - c * p| ≤ |c * p| / 2 ^ 53 + 1 / 2 ^ 1075)
    (h3 : q - 1 / 2 < k) (h4 : k ≤ q + 1 / 2)
    (h5 : |r - k / 100| ≤ (|q| + 1) / 100 / 2 ^ 53 + 1 / 2 ^ 1075) :
    |r - c * a / 100| ≤ 5 / 1000 + (|c * a / 100| + 1) / 2 ^ 51 := by
  have ha : |c * a / 100| = c * |a| / 100 := by
    rw [abs_div, abs_mul, abs_of_pos hc]
    norm_num
  have hcp : |c * p| = c * |p| := by rw [abs_mul, abs_of_pos hc]
  rw [ha]
  rw [hcp] at h2
  have hp := Float64.abs_le_of_error a p _ h1
  have hq := Float64.abs_le_of_error (c * p) q _ h2
  rw [hcp] at hq
  have hA : 0 ≤ |a| := abs_nonneg a
  have hP : 0 ≤ |p| := abs_nonneg p
  obtain ⟨x1, x2⟩ := abs_le.mp h1
  obtain ⟨y1, y2⟩ := abs_le.mp h2
  obtain ⟨z1, z2⟩ := abs_le.mp h5
  have m1 : c * |p| ≤ c * (|a| + (|a| / 2 ^ 53 + 1 / 2 ^ 1075)) :=
    mul_le_mul_of_nonneg_left hp (le_of_lt hc)
  have m2 : c * (p - a) ≤ c * (|a| / 2 ^ 53 + 1 / 2 ^ 1075) :=
    mul_le_mul_of_nonneg_left x2 (le_of_lt hc)
  have m3 : c * (-(|a| / 2 ^ 53 + 1 / 2 ^ 1075)) ≤ c * (p - a) :=
    mul_le_mul_of_nonneg_left x1 (le_of_lt hc)
  have m4 : c * (1 / 2 ^ 1075 : ℚ) ≤ 360 * (1 / 2 ^ 1075) :=
    mul_le_mul_of_nonneg_right hc2 (by positivity)
  have m5 : (0 : ℚ) ≤ c * |a| := mul_nonneg (le_of_lt hc) hA
  rw [abs_le]
  constructor <;> nlinarith

/-! ## The converters in double arithmetic -/

theorem Float64.div_hundred (a : ℚ) :
    (Float64.fin a).div (Float64.fin 100) = Float64.ofRat (a / 100) := by
  simp [Float64.div]

theorem Float64.div_ten (a : ℚ) :
    (Float64.fin a).div (Float64.fin 10) = Float64.ofRat (a / 10) := by
  simp [Float64.div]

theorem uLang.getLocaleSpeed64_false (numberToString : Float64 → String)
    (stringToNumber : String → Float64) (strings config : JSObject) (ms f p q : ℚ)
    (hf : (config "factorSpeed").toFloat64 stringToNumber = Float64.fin f)
    (h1 : Float64.ofRat (ms * f) = Float64.fin p)
    (h2 : Float64.ofRat (p * 360) = Float64.fin q) :
    (uLang.mk strings (some config)).getLocaleSpeed64 numberToString stringToNumber
        (Float64.fin ms) false =
      Except.ok (NumberOrText.number (Float64.ofRat (((⌊q + 1 / 2⌋ : ℤ) : ℚ) / 100))) := by
  simp only [uLang.getLocaleSpeed64, hf, Float64.mul, h1, h2, Float64.round,
    Float64.div_hundred]
  rfl

theorem uLang.getLocaleDistanceMajor64_false (numberToString : Float64 → String)
    (stringToNumber : String → Float64) (strings config : JSObject) (m f p q : ℚ)
    (hf : (config "factorDistanceMajor").toFloat64 stringToNumber = Float64.fin f)
    (h1 : Float64.ofRat (m * f) = Float64.fin p)
    (h2 : Float64.ofRat (p / 10) = Float64.fin q) :
    (uLang.mk strings (some config)).getLocaleDistanceMajor64 numberToString stringToNumber
        (Float64.fin m) false =
      Except.ok (NumberOrText.number (Float64.ofRat (((⌊q + 1 / 2⌋ : ℤ) : ℚ) / 100))) := by
  simp only [uLang.getLocaleDistanceMajor64, hf, Float64.mul, h1, Float64.div_ten, h2,
    Float64.round, Float64.div_hundred]
  rfl

theorem uLang.getLocaleDistance64_false (numberToString : Float64 → String)
    (stringToNumber : String → Float64) (strings config : JSObject) (m f p q : ℚ)
    (hf : (config "factorDistance").toFloat64 stringToNumber = Float64.fin f)
    (h1 : Float64.ofRat (m * f) = Float64.fin p)
    (h2 : Float64.ofRat (p * 100) = Float64.fin q) :
    (uLang.mk strings (some config)).getLocaleDistance64 numberToString stringToNumber
        (Float64.fin m) false =
      Except.ok (NumberOrText.number (Float64.ofRat (((⌊q + 1 / 2⌋ : ℤ) : ℚ) / 100))) := by
  simp only [uLang.getLocaleDistance64, hf, Float64.mul, h1, h2, Float64.round,
    Float64.div_hundred]
  rfl

theorem Float64.ofRat_one : Float64.ofRat 1 = Float64.fin 1 := by
  have h := Float64.ofRat_natCast 1 (by norm_num)
  simpa using h

/-- C5, counterexample: for the double `ms = 0.012499999999999999` and the
factor 1 the product with 360 is rounded to the double 4.5, so that the code
rounds to 5 and returns the double 0.05, where `round(ms * 1 * 360) / 100` is
`4 / 100`; and 0.05 is more than 0.005 away from `3.6 * ms`. -/
theorem getLocaleSpeed64_rounded_product_tie :
    Float64.ofRat (7205759403792793 / 2 ^ 59) = Float64.fin (7205759403792793 / 2 ^ 59) ∧
    Float64.ofRat (5 / 100) = Float64.fin (7205759403792794 / 2 ^ 57) ∧
    uLang.getLocaleSpeed64 plainNumberToString (fun _ => Float64.nan)
        (uLang.mk mockStrings (some plainFactors))
        (Float64.fin (7205759403792793 / 2 ^ 59)) false =
      Except.ok (NumberOrText.number (Float64.fin (7205759403792794 / 2 ^ 57))) ∧
    ((⌊(7205759403792793 / 2 ^ 59 : ℚ) * 1 * 360 + 1 / 2⌋ : ℤ) : ℚ) / 100 = 4 / 100 ∧
    (7205759403792794 / 2 ^ 57 : ℚ) ≠ 4 / 100 ∧
    (5 : ℚ) / 1000 <
      |(7205759403792794 / 2 ^ 57 : ℚ) - 36 / 10 * 1 * (7205759403792793 / 2 ^ 59)| := by
  have hf : (plainFactors "factorSpeed").toFloat64 (fun _ => Float64.nan) =
      Float64.fin 1 := Float64.ofRat_one
  have h1 := Float64.ofRat_pos ((7205759403792793 : ℚ) / 2 ^ 59 * 1) (-7) 7205759403792793
    (7205759403792793 / 2 ^ 59) (by norm_num) (by norm_num) (by norm_num) (by norm_num)
    (by norm_num) (by norm_num) (by norm_num) (by norm_num)
  have h2 := Float64.ofRat_pos ((7205759403792793 : ℚ) / 2 ^ 59 * 360) 2 5066549580791808
    (9 / 2) (by norm_num) (by norm_num) (by norm_num) (by norm_num)
    (by norm_num) (by norm_num) (by norm_num) (by norm_num)
  have h3 := Float64.ofRat_pos ((5 : ℚ) / 100) (-5) 7205759403792794
    (7205759403792794 / 2 ^ 57) (by norm_num) (by norm_num) (by norm_num) (by norm_num)
    (by norm_num) (by norm_num) (by norm_num) (by norm_num)
  have hk : ((⌊(9 / 2 : ℚ) + 1 / 2⌋ : ℤ) : ℚ) / 100 = 5 / 100 := by norm_num
  have hmain := uLang.getLocaleSpeed64_false plainNumberToString (fun _ => Float64.nan)
    mockStrings plainFactors _ 1 _ _ hf h1 h2
  rw [hk, h3] at hmain
  have hin : Float64.ofRat (7205759403792793 / 2 ^ 59) =
      Float64.fin (7205759403792793 / 2 ^ 59) := by
    have c : (7205759403792793 / 2 ^ 59 : ℚ) * 1 = 7205759403792793 / 2 ^ 59 := by ring
    rw [c] at h1
    exact h1
  refine ⟨hin, h3, hmain, by norm_num, by norm_num, ?_⟩
  rw [abs_of_pos (by norm_num)]
  norm_num

/-- C5, as amended: for every finite `ms` and every configured finite
factor `f` whose product `p = ms * f` and whose product `q = p * 360`, each
rounded to the nearest double, are finite, `getLocaleSpeed(ms, false)` is the
finite double `r` nearest to `k / 100`, where `k` is the integer nearest to
`q`, a tie going upward (`q - 1/2 < k ≤ q + 1/2`); `r` differs from
`3.6 * f * ms` by at most 0.005 and the fraction `2 ^ (-51)` of
`|3.6 * f * ms| + 1`, and when neither `p` nor `q` is rounded, `k / 100` differs
from `3.6 * f * ms` by at most 0.005. -/
theorem getLocaleSpeed64_rounds_to_hundredths (numberToString : Float64 → String)
    (stringToNumber : String → Float64) (strings config : JSObject) (ms f p q : ℚ)
    (hf : (config "factorSpeed").toFloat64 stringToNumber = Float64.fin f)
    (h1 : Float64.ofRat (ms * f) = Float64.fin p)
    (h2 : Float64.ofRat (p * 360) = Float64.fin q) :
    ∃ (k : ℤ) (r : ℚ),
      (uLang.mk strings (some config)).getLocaleSpeed64 numberToString stringToNumber
          (Float64.fin ms) false = Except.ok (NumberOrText.number (Float64.fin r)) ∧
      Float64.ofRat ((k : ℚ) / 100) = Float64.fin r ∧
      q - 1 / 2 < (k : ℚ) ∧ (k : ℚ) ≤ q + 1 / 2 ∧
      |r - 36 / 10 * f * ms| ≤ 5 / 1000 + (|36 / 10 * f * ms| + 1) / 2 ^ 51 ∧
      (p = ms * f → q = p * 360 → |(k : ℚ) / 100 - 36 / 10 * f * ms| ≤ 5 / 1000) := by
  obtain ⟨b1, b2⟩ := JSNumber.round_near q
  obtain ⟨r, hr, herr⟩ := Float64.round_div_hundred q (Float64.ofRat_fin_lt _ q h2)
  have hcall := uLang.getLocaleSpeed64_false numberToString stringToNumber strings
    config ms f p q hf h1 h2
  rw [hr] at hcall
  have e1 := Float64.ofRat_fin_error _ p h1
  have e2 := Float64.ofRat_fin_error _ q h2
  have c2 : p * 360 = 360 * p := by ring
  rw [c2] at e2
  have hbound := Float64.converter_error (ms * f) p 360 q _ r (by norm_num) (by norm_num)
    e1 e2 b1 b2 herr
  have c3 : 360 * (ms * f) / 100 = 36 / 10 * f * ms := by ring
  rw [c3] at hbound
  refine ⟨⌊q + 1 / 2⌋, r, hcall, hr, b1, b2, hbound, fun e1 e2 => ?_⟩
  rw [abs_le]
  constructor <;> linarith

/-- The test `should return localized speed value`: 1000 with the factor
0.33, the double nearest to `33 / 100`, gives 1188. -/
theorem getLocaleSpeed64_rounds_to_hundredths_witness :
    uLang.getLocaleSpeed64 plainNumberToString (fun _ => Float64.nan) mockLang
      (Float64.fin 1000) false = Except.ok (NumberOrText.number (Float64.fin 1188)) := by
  have hf := Float64.ofRat_pos ((33 : ℚ) / 100) (-2) 5944751508129055
    (5944751508129055 / 2 ^ 54) (by norm_num) (by norm_num) (by norm_num) (by norm_num)
    (by norm_num) (by norm_num) (by norm_num) (by norm_num)
  have h1 := Float64.ofRat_pos ((1000 : ℚ) * (5944751508129055 / 2 ^ 54)) 8
    5805421394657280 330 (by norm_num) (by norm_num) (by norm_num) (by norm_num)
    (by norm_num) (by norm_num) (by norm_num) (by norm_num)
  have h2 := Float64.ofRat_pos ((330 : ℚ) * 360) 16 8163873836236800 118800
    (by norm_num) (by norm_num) (by norm_num) (by norm_num)
    (by norm_num) (by norm_num) (by norm_num) (by norm_num)
  have h3 := Float64.ofRat_pos ((118800 : ℚ) / 100) 10 5224879255191552 1188
    (by norm_num) (by norm_num) (by norm_num) (by norm_num)
    (by norm_num) (by norm_num) (by norm_num) (by norm_num)
  obtain ⟨k, r, hk, hr, b1, b2, _, _⟩ := getLocaleSpeed64_rounds_to_hundredths
    plainNumberToString (fun _ => Float64.nan) mockStrings mockConfig 1000 _ _ _ hf h1 h2
  have e1 : (118799 : ℚ) < (k : ℚ) := by linarith
  have e2 : (k : ℚ) < 118801 := by linarith
  have e3 : (118799 : ℤ) < k := by exact_mod_cast e1
  have e4 : k < (118801 : ℤ) := by exact_mod_cast e2
  have e5 : k = 118800 := by omega
  rw [e5] at hr
  have c : (((118800 : ℤ) : ℚ)) / 100 = (118800 : ℚ) / 100 := by norm_num
  rw [c, h3] at hr
  rw [← Float64.fin.inj hr] at hk
  exact hk

/-- C6, counterexample: for the double `m = 46.666666666666664` and the
factor 0.75 the product is rounded to the double 35, so that the code rounds
3.5 to 4 and returns the double 0.04, where `round(m * 0.75 / 10) / 100` is
`3 / 100`; and 0.04 is more than 0.005 away from `m * 0.75 / 1000`. -/
theorem getLocaleDistanceMajor64_rounded_product_tie :
    Float64.ofRat (6567749456581973 / 2 ^ 47) = Float64.fin (6567749456581973 / 2 ^ 47) ∧
    Float64.ofRat (4 / 100) = Float64.fin (5764607523034235 / 2 ^ 57) ∧
    uLang.getLocaleDistanceMajor64 plainNumberToString (fun _ => Float64.nan)
        (uLang.mk mockStrings (some plainFactors))
        (Float64.fin (6567749456581973 / 2 ^ 47)) false =
      Except.ok (NumberOrText.number (Float64.fin (5764607523034235 / 2 ^ 57))) ∧
    ((⌊(6567749456581973 / 2 ^ 47 : ℚ) * (3 / 4) / 10 + 1 / 2⌋ : ℤ) : ℚ) / 100 = 3 / 100 ∧
    (5764607523034235 / 2 ^ 57 : ℚ) ≠ 3 / 100 ∧
    (5 : ℚ) / 1000 <
      |(5764607523034235 / 2 ^ 57 : ℚ) - 6567749456581973 / 2 ^ 47 * (3 / 4) / 1000| := by
  have hf : (plainFactors "factorDistanceMajor").toFloat64 (fun _ => Float64.nan) =
      Float64.fin (3 / 4) :=
    Float64.ofRat_pos ((3 : ℚ) / 4) (-1) 6755399441055744 (3 / 4) (by norm_num)
      (by norm_num) (by norm_num) (by norm_num) (by norm_num) (by norm_num) (by norm_num)
      (by norm_num)
  have h1 := Float64.ofRat_pos ((6567749456581973 : ℚ) / 2 ^ 47 * (3 / 4)) 5
    4925812092436480 35 (by norm_num) (by norm_num) (by norm_num) (by norm_num)
    (by norm_num) (by norm_num) (by norm_num) (by norm_num)
  have h2 := Float64.ofRat_pos ((35 : ℚ) / 10) 1 7881299347898368
    (7 / 2) (by norm_num) (by norm_num) (by norm_num) (by norm_num)
    (by norm_num) (by norm_num) (by norm_num) (by norm_num)
  have h3 := Float64.ofRat_pos ((4 : ℚ) / 100) (-5) 5764607523034235
    (5764607523034235 / 2 ^ 57) (by norm_num) (by norm_num) (by norm_num) (by norm_num)
    (by norm_num) (by norm_num) (by norm_num) (by norm_num)
  have hk : ((⌊(7 / 2 : ℚ) + 1 / 2⌋ : ℤ) : ℚ) / 100 = 4 / 100 := by norm_num
  have hmain := uLang.getLocaleDistanceMajor64_false plainNumberToString
    (fun _ => Float64.nan) mockStrings plainFactors _ (3 / 4) _ _ hf h1 h2
  rw [hk, h3] at hmain
  have hin := Float64.ofRat_pos ((6567749456581973 : ℚ) / 2 ^ 47) 5 6567749456581973
    (6567749456581973 / 2 ^ 47) (by norm_num) (by norm_num) (by norm_num) (by norm_num)
    (by norm_num) (by norm_num) (by norm_num) (by norm_num)
  refine ⟨hin, h3, hmain, by norm_num, by norm_num, ?_⟩
  rw [abs_of_pos (by norm_num)]
  norm_num

/-- C6, as amended: for every finite `m` and every configured finite
factor `f` whose product `p = m * f` and whose quotient `q = p / 10`, each
rounded to the nearest double, are finite, `getLocaleDistanceMajor(m, false)` is the
finite double `r` nearest to `k / 100`, where `k` is the integer nearest to
`q`, a tie going upward (`q - 1/2 < k ≤ q + 1/2`); `r` differs from
`m * f / 1000` by at most 0.005 and the fraction `2 ^ (-51)` of
`|m * f / 1000| + 1`, and when neither `p` nor `q` is rounded, `k / 100` differs
from `m * f / 1000` by at most 0.005. -/
theorem getLocaleDistanceMajor64_rounds_to_hundredths (numberToString : Float64 → String)
    (stringToNumber : String → Float64) (strings config : JSObject) (m f p q : ℚ)
    (hf : (config "factorDistanceMajor").toFloat64 stringToNumber = Float64.fin f)
    (h1 : Float64.ofRat (m * f) = Float64.fin p)
    (h2 : Float64.ofRat (p / 10) = Float64.fin q) :
    ∃ (k : ℤ) (r : ℚ),
      (uLang.mk strings (some config)).getLocaleDistanceMajor64 numberToString stringToNumber
          (Float64.fin m) false = Except.ok (NumberOrText.number (Float64.fin r)) ∧
      Float64.ofRat ((k : ℚ) / 100) = Float64.fin r ∧
      q - 1 / 2 < (k : ℚ) ∧ (k : ℚ) ≤ q + 1 / 2 ∧
      |r - m * f / 1000| ≤ 5 / 1000 + (|m * f / 1000| + 1) / 2 ^ 51 ∧
      (p = m * f → q = p / 10 → |(k : ℚ) / 100 - m * f / 1000| ≤ 5 / 1000) := by
  obtain ⟨b1, b2⟩ := JSNumber.round_near q
  obtain ⟨r, hr, herr⟩ := Float64.round_div_hundred q (Float64.ofRat_fin_lt _ q h2)
  have hcall := uLang.getLocaleDistanceMajor64_false numberToString stringToNumber strings
    config m f p q hf h1 h2
  rw [hr] at hcall
  have e1 := Float64.ofRat_fin_error _ p h1
  have e2 := Float64.ofRat_fin_error _ q h2
  have c2 : p / 10 = (1 / 10 : ℚ) * p := by ring
  rw [c2] at e2
  have hbound := Float64.converter_error (m * f) p (1 / 10 : ℚ) q _ r (by norm_num)
    (by norm_num) e1 e2 b1 b2 herr
  have c3 : (1 / 10 : ℚ) * (m * f) / 100 = m * f / 1000 := by ring
  rw [c3] at hbound
  refine ⟨⌊q + 1 / 2⌋, r, hcall, hr, b1, b2, hbound, fun e1 e2 => ?_⟩
  rw [abs_le]
  constructor <;> linarith

/-- The test `should return localized distance major value`: 1000 with the
factor 0.55, the double nearest to `55 / 100`, gives that double. -/
theorem getLocaleDistanceMajor64_rounds_to_hundredths_witness :
    uLang.getLocaleDistanceMajor64 plainNumberToString (fun _ => Float64.nan) mockLang
        (Float64.fin 1000) false =
      Except.ok (NumberOrText.number (Float64.fin (4953959590107546 / 2 ^ 53))) ∧
    Float64.ofRat (55 / 100) = Float64.fin (4953959590107546 / 2 ^ 53) := by
  have hf := Float64.ofRat_pos ((55 : ℚ) / 100) (-1) 4953959590107546
    (4953959590107546 / 2 ^ 53) (by norm_num) (by norm_num) (by norm_num) (by norm_num)
    (by norm_num) (by norm_num) (by norm_num) (by norm_num)
  have h1 := Float64.ofRat_pos ((1000 : ℚ) * (4953959590107546 / 2 ^ 53)) 9
    4837851162214400 550 (by norm_num) (by norm_num) (by norm_num) (by norm_num)
    (by norm_num) (by norm_num) (by norm_num) (by norm_num)
  have h2 := Float64.ofRat_pos ((550 : ℚ) / 10) 5 7740561859543040 55
    (by norm_num) (by norm_num) (by norm_num) (by norm_num)
    (by norm_num) (by norm_num) (by norm_num) (by norm_num)
  obtain ⟨k, r, hk, hr, b1, b2, _, _⟩ := getLocaleDistanceMajor64_rounds_to_hundredths
    plainNumberToString (fun _ => Float64.nan) mockStrings mockConfig 1000 _ _ _ hf h1 h2
  have e1 : (54 : ℚ) < (k : ℚ) := by linarith
  have e2 : (k : ℚ) < 56 := by linarith
  have e3 : (54 : ℤ) < k := by exact_mod_cast e1
  have e4 : k < (56 : ℤ) := by exact_mod_cast e2
  have e5 : k = 55 := by omega
  rw [e5] at hr
  have c : (((55 : ℤ) : ℚ)) / 100 = (55 : ℚ) / 100 := by norm_num
  rw [c, hf] at hr
  rw [← Float64.fin.inj hr] at hk
  exact ⟨hk, hf⟩

/-- C7, counterexample: for the double `m = 0.024999999999999998` and the
factor 1 the product with 100 is rounded to the double 2.5, so that the code
rounds to 3 and returns the double 0.03, where `round(m * 1 * 100) / 100` is
`2 / 100`; and 0.03 is more than 0.005 away from `m * 1`. -/
theorem getLocaleDistance64_rounded_product_tie :
    Float64.ofRat (7205759403792793 / 2 ^ 58) = Float64.fin (7205759403792793 / 2 ^ 58) ∧
    Float64.ofRat (3 / 100) = Float64.fin (8646911284551352 / 2 ^ 58) ∧
    uLang.getLocaleDistance64 plainNumberToString (fun _ => Float64.nan)
        (uLang.mk mockStrings (some plainFactors))
        (Float64.fin (7205759403792793 / 2 ^ 58)) false =
      Except.ok (NumberOrText.number (Float64.fin (8646911284551352 / 2 ^ 58))) ∧
    ((⌊(7205759403792793 / 2 ^ 58 : ℚ) * 1 * 100 + 1 / 2⌋ : ℤ) : ℚ) / 100 = 2 / 100 ∧
    (8646911284551352 / 2 ^ 58 : ℚ) ≠ 2 / 100 ∧
    (5 : ℚ) / 1000 <
      |(8646911284551352 / 2 ^ 58 : ℚ) - 7205759403792793 / 2 ^ 58 * 1| := by
  have hf : (plainFactors "factorDistance").toFloat64 (fun _ => Float64.nan) =
      Float64.fin 1 := Float64.ofRat_one
  have h1 := Float64.ofRat_pos ((7205759403792793 : ℚ) / 2 ^ 58 * 1) (-6) 7205759403792793
    (7205759403792793 / 2 ^ 58) (by norm_num) (by norm_num) (by norm_num) (by norm_num)
    (by norm_num) (by norm_num) (by norm_num) (by norm_num)
  have h2 := Float64.ofRat_pos ((7205759403792793 : ℚ) / 2 ^ 58 * 100) 1 5629499534213120
    (5 / 2) (by norm_num) (by norm_num) (by norm_num) (by norm_num)
    (by norm_num) (by norm_num) (by norm_num) (by norm_num)
  have h3 := Float64.ofRat_pos ((3 : ℚ) / 100) (-6) 8646911284551352
    (8646911284551352 / 2 ^ 58) (by norm_num) (by norm_num) (by norm_num) (by norm_num)
    (by norm_num) (by norm_num) (by norm_num) (by norm_num)
  have hk : ((⌊(5 / 2 : ℚ) + 1 / 2⌋ : ℤ) : ℚ) / 100 = 3 / 100 := by norm_num
  have hmain := uLang.getLocaleDistance64_false plainNumberToString (fun _ => Float64.nan)
    mockStrings plainFactors _ 1 _ _ hf h1 h2
  rw [hk, h3] at hmain
  have hin : Float64.ofRat (7205759403792793 / 2 ^ 58) =
      Float64.fin (7205759403792793 / 2 ^ 58) := by
    have c : (7205759403792793 / 2 ^ 58 : ℚ) * 1 = 7205759403792793 / 2 ^ 58 := by ring
    rw [c] at h1
    exact h1
  refine ⟨hin, h3, hmain, by norm_num, by norm_num, ?_⟩
  rw [abs_of_pos (by norm_num)]
  norm_num

/-- C7, as amended: for every finite `m` and every configured finite
factor `f` whose product `p = m * f` and whose product `q = p * 100`, each
rounded to the nearest double, are finite, `getLocaleDistance(m, false)` is the
finite double `r` nearest to `k / 100`, where `k` is the integer nearest to
`q`, a tie going upward (`q - 1/2 < k ≤ q + 1/2`); `r` differs from
`m * f` by at most 0.005 and the fraction `2 ^ (-51)` of
`|m * f| + 1`, and when neither `p` nor `q` is rounded, `k / 100` differs
from `m * f` by at most 0.005. -/
theorem getLocaleDistance64_rounds_to_hundredths (numberToString : Float64 → String)
    (stringToNumber : String → Float64) (strings config : JSObject) (m f p q : ℚ)
    (hf : (config "factorDistance").toFloat64 stringToNumber = Float64.fin f)
    (h1 : Float64.ofRat (m * f) = Float64.fin p)
    (h2 : Float64.ofRat (p * 100) = Float64.fin q) :
    ∃ (k : ℤ) (r : ℚ),
      (uLang.mk strings (some config)).getLocaleDistance64 numberToString stringToNumber
          (Float64.fin m) false = Except.ok (NumberOrText.number (Float64.fin r)) ∧
      Float64.ofRat ((k : ℚ) / 100) = Float64.fin r ∧
      q - 1 / 2 < (k : ℚ) ∧ (k : ℚ) ≤ q + 1 / 2 ∧
      |r - m * f| ≤ 5 / 1000 + (|m * f| + 1) / 2 ^ 51 ∧
      (p = m * f → q = p * 100 → |(k : ℚ) / 100 - m * f| ≤ 5 / 1000) := by
  obtain ⟨b1, b2⟩ := JSNumber.round_near q
  obtain ⟨r, hr, herr⟩ := Float64.round_div_hundred q (Float64.ofRat_fin_lt _ q h2)
  have hcall := uLang.getLocaleDistance64_false numberToString stringToNumber strings
    config m f p q hf h1 h2
  rw [hr] at hcall
  have e1 := Float64.ofRat_fin_error _ p h1
  have e2 := Float64.ofRat_fin_error _ q h2
  have c2 : p * 100 = 100 * p := by ring
  rw [c2] at e2
  have hbound := Float64.converter_error (m * f) p 100 q _ r (by norm_num) (by norm_num)
    e1 e2 b1 b2 herr
  have c3 : 100 * (m * f) / 100 = m * f := by ring
  rw [c3] at hbound
  refine ⟨⌊q + 1 / 2⌋, r, hcall, hr, b1, b2, hbound, fun e1 e2 => ?_⟩
  rw [abs_le]
  constructor <;> linarith

/-- The test `should return localized distance value`: 1000 with the factor
1.3, the double nearest to `13 / 10`, gives 1300. -/
theorem getLocaleDistance64_rounds_to_hundredths_witness :
    uLang.getLocaleDistance64 plainNumberToString (fun _ => Float64.nan) mockLang
      (Float64.fin 1000) false = Except.ok (NumberOrText.number (Float64.fin 1300)) := by
  have hf := Float64.ofRat_pos ((13 : ℚ) / 10) 0 5854679515581645
    (5854679515581645 / 2 ^ 52) (by norm_num) (by norm_num) (by norm_num) (by norm_num)
    (by norm_num) (by norm_num) (by norm_num) (by norm_num)
  have h1 := Float64.ofRat_pos ((1000 : ℚ) * (5854679515581645 / 2 ^ 52)) 10
    5717460464435200 1300 (by norm_num) (by norm_num) (by norm_num) (by norm_num)
    (by norm_num) (by norm_num) (by norm_num) (by norm_num)
  have h2 := Float64.ofRat_pos ((1300 : ℚ) * 100) 16 8933531975680000 130000
    (by norm_num) (by norm_num) (by norm_num) (by norm_num)
    (by norm_num) (by norm_num) (by norm_num) (by norm_num)
  have h3 := Float64.ofRat_pos ((130000 : ℚ) / 100) 10 5717460464435200 1300
    (by norm_num) (by norm_num) (by norm_num) (by norm_num)
    (by norm_num) (by norm_num) (by norm_num) (by norm_num)
  obtain ⟨k, r, hk, hr, b1, b2, _, _⟩ := getLocaleDistance64_rounds_to_hundredths
    plainNumberToString (fun _ => Float64.nan) mockStrings mockConfig 1000 _ _ _ hf h1 h2
  have e1 : (129999 : ℚ) < (k : ℚ) := by linarith
  have e2 : (k : ℚ) < 130001 := by linarith
  have e3 : (129999 : ℤ) < k := by exact_mod_cast e1
  have e4 : k < (130001 : ℤ) := by exact_mod_cast e2
  have e5 : k = 130000 := by omega
  rw [e5] at hr
  have c : (((130000 : ℤ) : ℚ)) / 100 = (130000 : ℚ) / 100 := by norm_num
  rw [c, h3] at hr
  rw [← Float64.fin.inj hr] at hk
  exact hk

/-! ## The fixture on negative inputs -/

/-- The rounding of a negative number, with the significand bracketed. -/
theorem Float64.ofRat_of_neg (x : ℚ) (e n : ℤ) (value : ℚ) (hx : x < 0)
    (h1 : (2 : ℚ) ^ e ≤ -x) (h2 : -x < (2 : ℚ) ^ (e + 1)) (he : -1022 ≤ e)
    (hn1 : (n : ℚ) - 1 / 2 < x / (2 : ℚ) ^ (e - 52))
    (hn2 : x / (2 : ℚ) ^ (e - 52) < (n : ℚ) + 1 / 2)
    (hv : value = (n : ℚ) * (2 : ℚ) ^ (e - 52))
    (hfin : -value < (2 : ℚ) ^ (1024 : ℕ)) :
    Float64.ofRat x = Float64.fin value := by
  have hp : (0 : ℚ) < (2 : ℚ) ^ (e - 52) := by positivity
  have hq : x / (2 : ℚ) ^ (e - 52) < 0 := div_neg_of_neg_of_pos hx hp
  have hn0 : (n : ℚ) ≤ 0 := by
    by_contra hpos
    have a1 : (0 : ℚ) < (n : ℚ) := not_le.mp hpos
    have a2 : 0 < n := by exact_mod_cast a1
    have a3 : 1 ≤ n := by omega
    have a4 : (1 : ℚ) ≤ (n : ℚ) := by exact_mod_cast a3
    linarith
  rw [hv]
  apply Float64.ofRat_eq x e n (ne_of_lt hx)
  · rwa [abs_of_neg hx]
  · rwa [abs_of_neg hx]
  · exact he
  · rw [abs_lt]
    constructor <;> linarith
  · rw [abs_of_nonpos (mul_nonpos_of_nonpos_of_nonneg hn0 (le_of_lt hp)), ← hv]
    exact hfin

theorem Float64.nearestEven_half (m : ℤ) (hm : m % 2 = 0) :
    Float64.nearestEven ((m : ℚ) + 1 / 2) = m := by
  have hfl : ⌊(m : ℚ) + 1 / 2⌋ = m := by
    rw [Int.floor_eq_iff]
    constructor <;> linarith
  unfold Float64.nearestEven
  rw [hfl]
  have c1 : ¬ ((m : ℚ) + 1 / 2 - (m : ℚ) < 1 / 2) := by
    rw [not_lt]
    linarith
  have c2 : ¬ ((1 : ℚ) / 2 < (m : ℚ) + 1 / 2 - (m : ℚ)) := by
    rw [not_lt]
    linarith
  rw [if_neg c1, if_neg c2, if_pos hm]

/-- The rounding of a number half way between two doubles: to the one with
the even significand. -/
theorem Float64.ofRat_tie (x : ℚ) (e m : ℤ) (value : ℚ) (hx : x ≠ 0)
    (h1 : (2 : ℚ) ^ e ≤ |x|) (h2 : |x| < (2 : ℚ) ^ (e + 1)) (he : -1022 ≤ e)
    (hz : x / (2 : ℚ) ^ (e - 52) = (m : ℚ) + 1 / 2) (hm : m % 2 = 0)
    (hv : value = (m : ℚ) * (2 : ℚ) ^ (e - 52))
    (hfin : |value| < (2 : ℚ) ^ (1024 : ℕ)) :
    Float64.ofRat x = Float64.fin value := by
  unfold Float64.ofRat
  rw [if_neg hx, Float64.ulp_eq x e hx h1 h2 he, hz, Float64.nearestEven_half m hm, ← hv,
    if_neg (not_le.mpr hfin)]

/-- On the fixture, whose factor 0.55 is a double slightly above `55 / 100`,
`getLocaleDistanceMajor(-100)` is the double -0.06: the quotient is the
double below -5.5, which `Math.round` takes to -6. -/
theorem mock_getLocaleDistanceMajor64_negative :
    uLang.getLocaleDistanceMajor64 plainNumberToString (fun _ => Float64.nan) mockLang
        (Float64.fin (-100)) false =
      Except.ok (NumberOrText.number (Float64.fin (-8646911284551352 / 2 ^ 57))) ∧
    Float64.ofRat (-6 / 100) = Float64.fin (-8646911284551352 / 2 ^ 57) := by
  have hf := Float64.ofRat_pos ((55 : ℚ) / 100) (-1) 4953959590107546
    (4953959590107546 / 2 ^ 53) (by norm_num) (by norm_num) (by norm_num) (by norm_num)
    (by norm_num) (by norm_num) (by norm_num) (by norm_num)
  have h1 := Float64.ofRat_of_neg ((-100 : ℚ) * (4953959590107546 / 2 ^ 53)) 5
    (-7740561859543041) (-7740561859543041 / 2 ^ 47) (by norm_num) (by norm_num)
    (by norm_num) (by norm_num) (by norm_num) (by norm_num) (by norm_num) (by norm_num)
  have h2 := Float64.ofRat_of_neg ((-7740561859543041 : ℚ) / 2 ^ 47 / 10) 2
    (-6192449487634433) (-6192449487634433 / 2 ^ 50) (by norm_num) (by norm_num)
    (by norm_num) (by norm_num) (by norm_num) (by norm_num) (by norm_num) (by norm_num)
  have h3 := Float64.ofRat_of_neg ((-6 : ℚ) / 100) (-5) (-8646911284551352)
    (-8646911284551352 / 2 ^ 57) (by norm_num) (by norm_num)
    (by norm_num) (by norm_num) (by norm_num) (by norm_num) (by norm_num) (by norm_num)
  have hk : ((⌊(-6192449487634433 / 2 ^ 50 : ℚ) + 1 / 2⌋ : ℤ) : ℚ) / 100 = -6 / 100 := by
    norm_num
  have hmain := uLang.getLocaleDistanceMajor64_false plainNumberToString
    (fun _ => Float64.nan) mockStrings mockConfig (-100) _ _ _ hf h1 h2
  rw [hk, h3] at hmain
  exact ⟨hmain, h3⟩

/-- On the fixture, whose factor 1.3 is a double slightly above `13 / 10`,
`getLocaleDistance(-0.75)` is the double -0.98: the product with 100 is the
double below -97.5, which `Math.round` takes to -98. The product
`-0.75 * 1.3` is half way between two doubles and goes to the even one. -/
theorem mock_getLocaleDistance64_negative :
    uLang.getLocaleDistance64 plainNumberToString (fun _ => Float64.nan) mockLang
        (Float64.fin (-3 / 4)) false =
      Except.ok (NumberOrText.number (Float64.fin (-8827055269646172 / 2 ^ 53))) ∧
    Float64.ofRat (-98 / 100) = Float64.fin (-8827055269646172 / 2 ^ 53) := by
  have hf := Float64.ofRat_pos ((13 : ℚ) / 10) 0 5854679515581645
    (5854679515581645 / 2 ^ 52) (by norm_num) (by norm_num) (by norm_num) (by norm_num)
    (by norm_num) (by norm_num) (by norm_num) (by norm_num)
  have h1 := Float64.ofRat_tie ((-3 / 4 : ℚ) * (5854679515581645 / 2 ^ 52)) (-1)
    (-8782019273372468) (-8782019273372468 / 2 ^ 53) (by norm_num)
    (by rw [abs_of_neg (by norm_num)]; norm_num)
    (by rw [abs_of_neg (by norm_num)]; norm_num) (by norm_num) (by norm_num)
    (by decide) (by norm_num) (by rw [abs_of_neg (by norm_num)]; norm_num)
  have h2 := Float64.ofRat_of_neg ((-8782019273372468 : ℚ) / 2 ^ 53 * 100) 6
    (-6860952557322241) (-6860952557322241 / 2 ^ 46) (by norm_num) (by norm_num)
    (by norm_num) (by norm_num) (by norm_num) (by norm_num) (by norm_num) (by norm_num)
  have h3 := Float64.ofRat_of_neg ((-98 : ℚ) / 100) (-1) (-8827055269646172)
    (-8827055269646172 / 2 ^ 53) (by norm_num) (by norm_num)
    (by norm_num) (by norm_num) (by norm_num) (by norm_num) (by norm_num) (by norm_num)
  have hk : ((⌊(-6860952557322241 / 2 ^ 46 : ℚ) + 1 / 2⌋ : ℤ) : ℚ) / 100 = -98 / 100 := by
    norm_num
  have hmain := uLang.getLocaleDistance64_false plainNumberToString
    (fun _ => Float64.nan) mockStrings mockConfig (-3 / 4) _ _ _ hf h1 h2
  rw [hk, h3] at hmain
  exact ⟨hmain, h3⟩

/-! ## Construction and initialisation -/

/-- C10: a new `uLang` has an empty strings table (every lookup fails) and a
`null` config; `init(config, data)` with `data` given makes `config` and
`strings` the given objects, so that every later lookup `_(k)` reads
`data[k]`, also after a further `init` without `data`; `init(config)` with
`data` omitted replaces the config only and leaves the strings table as it
was. -/
theorem init_sets_config_and_strings (self : uLang) (config config2 : Option JSObject)
    (data : JSObject) (k : JSValue) :
    uLang.new.strings = JSObject.empty ∧
    uLang.new.strings k.toJSString = JSValue.undefined ∧
    uLang.new.lookup k = Except.error (JSError.error "Unknown localized string") ∧
    uLang.new.config = none ∧
    (self.init config (some data)).config = config ∧
    (self.init config (some data)).strings = data ∧
    (self.init config (some data)).lookup k =
      (if data k.toJSString = JSValue.undefined then
        Except.error (JSError.error "Unknown localized string")
      else Except.ok (data k.toJSString)) ∧
    ((self.init config (some data)).init config2 none).lookup k =
      (self.init config (some data)).lookup k ∧
    (self.init config none).config = config ∧
    (self.init config none).strings = self.strings := by
  refine ⟨rfl, rfl, rfl, rfl, rfl, rfl, ?_, rfl, rfl, rfl⟩
  rw [uLang.lookup_eq]
  rfl

/-! ## Authentication state: `uAuth` -/

theorem uAuth.isAuthenticated_assignAll (self : uAuth) (assignments : List uAuth.Assignment) :
    (self.assignAll assignments).isAuthenticated =
      (self.isAuthenticated || assignments.any uAuth.Assignment.isUser) := by
  induction assignments generalizing self with
  | nil => simp [uAuth.assignAll]
  | cons a rest ih =>
    have step : self.assignAll (a :: rest) = (self.assign a).assignAll rest := rfl
    rw [step, ih]
    cases a <;> simp [uAuth.assign, uAuth.setUser, uAuth.setIsAdmin, uAuth.isAuthenticated,
      uAuth.Assignment.isUser]

theorem uAuth.any_isUser_iff (assignments : List uAuth.Assignment) :
    assignments.any uAuth.Assignment.isUser = true ↔
      ∃ a ∈ assignments, uAuth.Assignment.isUser a = true := by
  simp [List.any_eq_true]

/-- C14: the setter `isAdmin` stores `true` whatever value is assigned. After
`auth.isAdmin = false` on a new `uAuth` the getter returns `true`, where the
claim expects `false`; the assignment changes neither `user` nor
`isAuthenticated`. -/
theorem isAdmin_assignment_stores_true :
    (uAuth.new.setIsAdmin false).isAdmin = true ∧
    (uAuth.new.setIsAdmin false).isAdmin ≠ false ∧
    (∀ (self : uAuth) (b : Bool),
      (self.setIsAdmin b).isAdmin = true ∧
      (self.setIsAdmin b).user = self.user ∧
      (self.setIsAdmin b).isAuthenticated = self.isAuthenticated) := by
  refine ⟨rfl, by decide, fun self b => ⟨rfl, rfl, rfl⟩⟩

/-- C17: in every state reached from a new `uAuth` by a sequence of `user`
and `isAdmin` assignments, `handleEvent(event)` calls `changePassword` if and
only if `event.type` is `uEvent.PASSWORD` and the sequence holds an
assignment to `user`; `isAuthenticated` is true exactly then and stays true
under every further assignment; a new `uAuth` has `user` null,
`isAuthenticated` false and `isAdmin` false, and starts no password change
for any event. -/
theorem handleEvent_starts_changePassword_iff (PASSWORD : String)
    (assignments more : List uAuth.Assignment) (event : uEvent) :
    (uAuth.handleEvent PASSWORD (uAuth.new.assignAll assignments) event = true ↔
      event.type = PASSWORD ∧ ∃ a ∈ assignments, uAuth.Assignment.isUser a = true) ∧
    ((uAuth.new.assignAll assignments).isAuthenticated = true ↔
      ∃ a ∈ assignments, uAuth.Assignment.isUser a = true) ∧
    ((uAuth.new.assignAll assignments).isAuthenticated = true →
      ((uAuth.new.assignAll assignments).assignAll more).isAuthenticated = true) ∧
    uAuth.new.user = none ∧ uAuth.new.isAuthenticated = false ∧
    uAuth.new.isAdmin = false ∧
    uAuth.handleEvent PASSWORD uAuth.new event = false := by
  have hauth : (uAuth.new.assignAll assignments).isAuthenticated = true ↔
      ∃ a ∈ assignments, uAuth.Assignment.isUser a = true := by
    rw [uAuth.isAuthenticated_assignAll, ← uAuth.any_isUser_iff]
    simp [uAuth.new, uAuth.isAuthenticated]
  refine ⟨?_, hauth, fun h => ?_, rfl, rfl, rfl, ?_⟩
  · rw [← hauth]
    simp [uAuth.handleEvent]
  · rw [uAuth.isAuthenticated_assignAll, h]
    rfl
  · simp [uAuth.handleEvent, uAuth.new, uAuth.isAuthenticated]

/-! ## Option lists: `uSelect` -/

theorem HTMLSelectElement.add_none (options : List HTMLOptionElement)
    (option : HTMLOptionElement) :
    HTMLSelectElement.add options option none = options ++ [option] := rfl

theorem HTMLSelectElement.add_nil (option : HTMLOptionElement) (before : Option ℕ) :
    HTMLSelectElement.add [] option before = [option] := by
  cases before <;> simp [HTMLSelectElement.add]

theorem uSelect.foldl_add (selected : String) (items : List uListItem) (acc : uSelect) :
    items.foldl (fun (acc : uSelect) (option : uListItem) =>
      { acc with element := (HTMLSelectElement.add acc.element
          (HTMLOptionElement.mk option.listText option.listValue false
            (decide (selected = option.listValue)) false) none) }) acc =
    { acc with element := (acc.element ++ items.map (fun option =>
        HTMLOptionElement.mk option.listText option.listValue false
          (decide (selected = option.listValue)) false)) } := by
  induction items generalizing acc with
  | nil => simp
  | cons item rest ih =>
    rw [List.foldl_cons, ih]
    simp [HTMLSelectElement.add_none]

/-- The options that `setOptions` leaves in the element. -/
theorem uSelect.setOptions_eq (self : uSelect) (items : List uListItem)
    (selected : Option String) :
    self.setOptions items selected =
      { self with element :=
          ((if self.hasHead then
            [HTMLOptionElement.mk self.headText "0" true true true] else []) ++
          (if self.hasAllOption then
            [HTMLOptionElement.mk self.allText "all" false
              (decide (selected.getD "" = "all")) false] else []) ++
          items.map (fun option =>
            HTMLOptionElement.mk option.listText option.listValue false
              (decide (selected.getD "" = option.listValue)) false)) } := by
  unfold uSelect.setOptions
  simp only []
  rw [uSelect.foldl_add]
  cases h1 : self.hasHead <;> cases h2 : self.hasAllOption <;>
    simp [uSelect.addHead, HTMLSelectElement.add_nil, HTMLSelectElement.add_none, h1, h2]

/-- C15: after `setOptions(options, selected)` the options of the element
are, by text and value: the head option (`headText`, `0`) if `hasHead`, then
the option (`allText`, `all`) if `hasAllOption`, then one option per item in
the order given, with the text `listText = String(value)` and the value
`listValue = String(id)`. The options that were there before are gone (the
result does not depend on them), the length is the number of items plus one
for each of the two flags, and a second call with the same arguments changes
nothing. -/
theorem setOptions_replaces_options (self : uSelect) (items : List uListItem)
    (selected : Option String) :
    optionEntries (self.setOptions items selected).element =
      (if self.hasHead then [(self.headText, "0")] else []) ++
      (if self.hasAllOption then [(self.allText, "all")] else []) ++
      items.map (fun item => (item.listText, item.listValue)) ∧
    (self.setOptions items selected).element.length =
      items.length + (if self.hasHead then 1 else 0) + (if self.hasAllOption then 1 else 0) ∧
    (∀ before : List HTMLOptionElement,
      (uSelect.mk before self.hasAllOption self.allText self.hasHead self.headText).setOptions
        items selected = self.setOptions items selected) ∧
    (self.setOptions items selected).setOptions items selected =
      self.setOptions items selected ∧
    (∀ id value : JSValue,
      (uListItem.new id value).listText = value.toJSString ∧
      (uListItem.new id value).listValue = id.toJSString) := by
  refine ⟨?_, ?_, fun before => ?_, ?_, fun id value => ⟨rfl, rfl⟩⟩
  · rw [uSelect.setOptions_eq]
    cases self.hasHead <;> cases self.hasAllOption <;>
      simp [optionEntries, Function.comp_def]
  · rw [uSelect.setOptions_eq]
    cases self.hasHead <;> cases self.hasAllOption <;> simp
  · rw [uSelect.setOptions_eq, uSelect.setOptions_eq]
  · rw [uSelect.setOptions_eq, uSelect.setOptions_eq]

theorem length_ne_zero_iff_ne_empty (t : String) : t.length ≠ 0 ↔ t ≠ "" := by
  constructor
  · intro h e
    exact h (by rw [e]; rfl)
  · intro h e
    apply h
    apply String.ext
    have h2 : t.data.length = 0 := e
    exact List.length_eq_zero.mp h2

theorem optionList_find_inserted (l₁ l₂ : List HTMLOptionElement) (o : HTMLOptionElement)
    (v : String) (h₁ : ∀ x ∈ l₁, x.value ≠ v) (h₂ : o.value = v) :
    (l₁ ++ o :: l₂).find? (fun x => decide (x.value = v)) = some o ∧
    (l₁ ++ o :: l₂).findIdx (fun x => decide (x.value = v)) = l₁.length ∧
    (l₁ ++ o :: l₂).eraseIdx l₁.length = l₁ ++ l₂ := by
  induction l₁ with
  | nil => simp [h₂, List.findIdx_cons]
  | cons a rest ih =>
    have ha : a.value ≠ v := h₁ a (List.mem_cons_self _ _)
    obtain ⟨i1, i2, i3⟩ := ih (fun x hx => h₁ x (List.mem_cons_of_mem _ hx))
    refine ⟨?_, ?_, ?_⟩
    · simpa [List.find?_cons, ha] using i1
    · simp [List.findIdx_cons, ha, i2]
    · simpa using i3

theorem uSelect.remove_inserted (l₁ l₂ : List HTMLOptionElement) (o : HTMLOptionElement)
    (v : String) (h₁ : ∀ x ∈ l₁, x.value ≠ v) (h₂ : o.value = v)
    (a : Bool) (t : String) (b : Bool) (u : String) :
    (uSelect.mk (l₁ ++ o :: l₂) a t b u).remove v = uSelect.mk (l₁ ++ l₂) a t b u := by
  obtain ⟨i1, i2, i3⟩ := optionList_find_inserted l₁ l₂ o v h₁ h₂
  simp only [uSelect.remove, uSelect.getOption, i1, i2, i3]

theorem uSelect.showAllOption_eq (self : uSelect) (text : Option String) :
    self.showAllOption text =
      uSelect.mk
        (self.element.take (if self.hasHead && !self.element.isEmpty then 1 else 0) ++
          HTMLOptionElement.mk (self.allOptionText text) "all" false false false ::
          self.element.drop (if self.hasHead && !self.element.isEmpty then 1 else 0))
        true (self.allOptionText text) self.hasHead self.headText := by
  have key : ∀ s : uSelect,
      HTMLSelectElement.add s.element
        (HTMLOptionElement.mk s.allText "all" false false false)
        (some (if s.hasHead then 1 else 0)) =
      s.element.take (if s.hasHead && !s.element.isEmpty then 1 else 0) ++
        HTMLOptionElement.mk s.allText "all" false false false ::
        s.element.drop (if s.hasHead && !s.element.isEmpty then 1 else 0) := by
    intro s
    cases hh : s.hasHead <;> cases he : s.element <;> simp [HTMLSelectElement.add]
    intro h
    simp [h]
  have hk := key (uSelect.mk self.element true (self.allOptionText text) self.hasHead
    self.headText)
  simp only [] at hk
  rw [← hk]
  unfold uSelect.showAllOption uSelect.allOptionText
  cases text with
  | none => rfl
  | some t =>
    by_cases ht : t = ""
    · have hl : ¬ (t.length ≠ 0) := fun h => (length_ne_zero_iff_ne_empty t).1 h ht
      simp only [if_neg hl, if_pos ht]
    · have hl : t.length ≠ 0 := (length_ne_zero_iff_ne_empty t).2 ht
      simp only [if_pos hl, if_neg ht]

/-- C16, as amended: on a `uSelect` whose options hold no value `all`
(whatever `hasAllOption` is), `showAllOption(text)` inserts exactly one
option of value `all`, at index 1 when a head is present (`hasHead` and the
list not empty) and at index 0 otherwise, the other options keeping their
order; its text is `text` when that is given and not empty, and the stored
`allText` otherwise. A following `hideAllOption()` restores the option list
and sets `hasAllOption` back to false. -/
theorem showAllOption_then_hideAllOption (self : uSelect) (text : Option String)
    (hnone : ∀ o ∈ self.element, o.value ≠ "all") :
    (self.showAllOption text).element =
      self.element.take (if self.hasHead && !self.element.isEmpty then 1 else 0) ++
        HTMLOptionElement.mk (self.allOptionText text) "all" false false false ::
        self.element.drop (if self.hasHead && !self.element.isEmpty then 1 else 0) ∧
    (self.showAllOption text).hasAllOption = true ∧
    (∀ t : String, t ≠ "" → self.allOptionText (some t) = t) ∧
    ((self.showAllOption text).hideAllOption).element = self.element ∧
    ((self.showAllOption text).hideAllOption).hasAllOption = false := by
  have hrem := uSelect.remove_inserted
    (self.element.take (if self.hasHead && !self.element.isEmpty then 1 else 0))
    (self.element.drop (if self.hasHead && !self.element.isEmpty then 1 else 0))
    (HTMLOptionElement.mk (self.allOptionText text) "all" false false false) "all"
    (fun x hx => hnone x (List.mem_of_mem_take hx)) rfl
    false (self.allOptionText text) self.hasHead self.headText
  have hhide : (self.showAllOption text).hideAllOption =
      uSelect.mk self.element false (self.allOptionText text) self.hasHead self.headText := by
    rw [uSelect.showAllOption_eq]
    unfold uSelect.hideAllOption
    simp only []
    rw [hrem, List.take_append_drop]
  refine ⟨?_, ?_, fun t ht => ?_, ?_, ?_⟩
  · rw [uSelect.showAllOption_eq]
  · rw [uSelect.showAllOption_eq]
  · simp [uSelect.allOptionText, ht]
  · rw [hhide]
  · rw [hhide]

/-- The amended C16 on a select with a head and two options: the option
`All` goes to index 1 and `hideAllOption()` restores the list. -/
theorem showAllOption_then_hideAllOption_witness :
    ((uSelect.new [HTMLOptionElement.mk "a" "1" false false false,
        HTMLOptionElement.mk "b" "2" false false false] (some "Pick")).showAllOption
        (some "All")).element =
      [HTMLOptionElement.mk "Pick" "0" true true true,
        HTMLOptionElement.mk "All" "all" false false false,
        HTMLOptionElement.mk "a" "1" false false false,
        HTMLOptionElement.mk "b" "2" false false false] ∧
    (((uSelect.new [HTMLOptionElement.mk "a" "1" false false false,
        HTMLOptionElement.mk "b" "2" false false false] (some "Pick")).showAllOption
        (some "All")).hideAllOption).element =
      [HTMLOptionElement.mk "Pick" "0" true true true,
        HTMLOptionElement.mk "a" "1" false false false,
        HTMLOptionElement.mk "b" "2" false false false] := by
  have h := showAllOption_then_hideAllOption
    (uSelect.new [HTMLOptionElement.mk "a" "1" false false false,
      HTMLOptionElement.mk "b" "2" false false false] (some "Pick")) (some "All")
    (by decide)
  exact ⟨h.1.trans (by decide), h.2.2.2.1.trans (by decide)⟩

/-- C16, counterexample: on the select `hiddenAllSelect` (no head, no option,
`hasAllOption` false, `allText` equal to `All`), `showAllOption('')` inserts
the option (`All`, `all`) and not the option (``, `all`) of the claim. -/
theorem showAllOption_empty_text_keeps_allText :
    hiddenAllSelect.hasAllOption = false ∧
    (∀ o ∈ hiddenAllSelect.element, o.value ≠ "all") ∧
    optionEntries (hiddenAllSelect.showAllOption (some "")).element = [("All", "all")] ∧
    optionEntries (hiddenAllSelect.showAllOption (some "")).element ≠ [("", "all")] ∧
    ¬ (∀ (self : uSelect) (text : String), self.hasAllOption = false →
        (∀ o ∈ self.element, o.value ≠ "all") →
        ∃ index : ℕ, optionEntries (self.showAllOption (some text)).element =
          (optionEntries self.element).take index ++ (text, "all") ::
            (optionEntries self.element).drop index) := by
  have e : optionEntries (hiddenAllSelect.showAllOption (some "")).element =
      [("All", "all")] := by decide
  have e0 : optionEntries hiddenAllSelect.element = [] := by decide
  refine ⟨by decide, by decide, e, by decide, fun h => ?_⟩
  obtain ⟨index, hi⟩ := h hiddenAllSelect "" (by decide) (by decide)
  rw [e, e0] at hi
  simp at hi

/-! ## The map view-model -/

theorem MapViewModel.onReady_passes_tests : PassesOnReadyTests MapViewModel.onReady := by
  refine ⟨?_, ?_, ?_, ?_⟩ <;> rfl

theorem MapViewModel.getPopupHtml_passes_tests :
    PassesPopupTests MapViewModel.getPopupHtml :=
  ⟨⟨_, rfl, rfl⟩, ⟨_, rfl, rfl⟩⟩

theorem MapViewModel.loadMapAPI_passes_test :
    PassesFailedLoadTest MapViewModel.loadMapAPI := by
  intro bounds
  refine ⟨?_, ?_, ?_, rfl⟩ <;>
    simp [MapViewModel.loadMapAPI, MapViewModel.mock]

theorem not_threeWayRedraw_of_passes (onReady : MapViewModel → List ApiCall)
    (h : PassesOnReadyTests onReady) : ¬ ThreeWayRedraw onReady := by
  intro hc
  have h4 := h.2.2.2
  have hc4 := (hc { MapViewModel.mock with
    state := { uState.new with currentTrack := some testTrack },
    savedBounds := some testBounds }).2
  rw [hc4] at h4
  cases h4

/-- C11, counterexample: with `savedBounds = [1, 2, 3, 4]` and a current
track, `onReady` calls `displayTrack(track, false)` once, as the test `should
display track without update if current track is set in state and bounds are
set` expects, where the claim has no call of `displayTrack`; no
implementation that passes the tests of `onReady` follows the three-way
policy of the claim. -/
theorem onReady_displays_track_with_saved_bounds :
    displayTrackCalls (MapViewModel.onReady
      { MapViewModel.mock with
        state := { uState.new with currentTrack := some testTrack },
        savedBounds := some testBounds }) = [(testTrack, false)] ∧
    ¬ ThreeWayRedraw MapViewModel.onReady ∧
    ¬ ∃ onReady : MapViewModel → List ApiCall,
      PassesOnReadyTests onReady ∧ ThreeWayRedraw onReady :=
  ⟨rfl, not_threeWayRedraw_of_passes _ MapViewModel.onReady_passes_tests,
    fun ⟨f, hp, hc⟩ => not_threeWayRedraw_of_passes f hp hc⟩

/-- C11, as amended: `onReady` calls `zoomToBounds(savedBounds)` exactly once
when `savedBounds` is not null and not otherwise; it calls
`displayTrack(currentTrack, fullRedraw)` exactly once when `currentTrack` is
not null and not otherwise, with `fullRedraw` true exactly when `savedBounds`
is null; it makes no other call, so none at all when both are null; and it
passes the four tests of `onReady`. -/
theorem onReady_redraw_policy (vm : MapViewModel) :
    zoomToBoundsCalls (MapViewModel.onReady vm) = vm.savedBounds.toList ∧
    displayTrackCalls (MapViewModel.onReady vm) =
      (vm.state.currentTrack.map (fun track => (track, vm.savedBounds.isNone))).toList ∧
    (MapViewModel.onReady vm).length =
      (zoomToBoundsCalls (MapViewModel.onReady vm)).length +
        (displayTrackCalls (MapViewModel.onReady vm)).length ∧
    (∀ c ∈ MapViewModel.onReady vm,
      (∃ bounds, c = ApiCall.zoomToBounds bounds) ∨
      (∃ track fullRedraw, c = ApiCall.displayTrack track fullRedraw)) ∧
    PassesOnReadyTests MapViewModel.onReady := by
  obtain ⟨⟨track, latest⟩, api, bounds⟩ := vm
  refine ⟨?_, ?_, ?_, ?_, MapViewModel.onReady_passes_tests⟩ <;>
    cases track <;> cases bounds <;>
    simp [MapViewModel.onReady, zoomToBoundsCalls, displayTrackCalls]
  all_goals exact ⟨_, _, _, _, rfl⟩

theorem not_statsUnlessLatestPoint_of_passes
    (getPopupHtml : MapViewModel → ℕ → Option PopupHtml)
    (h : PassesPopupTests getPopupHtml) : ¬ StatsUnlessLatestPoint getPopupHtml := by
  intro hc
  obtain ⟨p, hp, hs⟩ := h.2
  obtain ⟨q, hq, ht⟩ := hc
    { MapViewModel.mock with state := { currentTrack := some testTrack2, showLatest := true } }
    testTrack2 0 rfl (by decide)
  rw [hp] at hq
  cases hq
  rw [hs] at ht
  exact absurd ht (by decide)

/-- C12, counterexample: for the point 0 of a track of two positions, which
is not the most recent one, and `showLatest = true`, the fragment has no
statistics panel, as the test `should get popup without stats when track
contains only latest positions` expects, where the claim has the panel for
every point but the most recent; no implementation that passes the two tests
follows the rule of the claim. -/
theorem getPopupHtml_omits_stats_for_earlier_point :
    MapViewModel.getPopupHtml
      { MapViewModel.mock with
        state := { currentTrack := some testTrack2, showLatest := true } } 0 =
      some { ordinal := 1, total := 2, stats := false } ∧
    0 + 1 ≠ testTrack2.positions.length ∧
    ¬ StatsUnlessLatestPoint MapViewModel.getPopupHtml ∧
    ¬ ∃ getPopupHtml : MapViewModel → ℕ → Option PopupHtml,
      PassesPopupTests getPopupHtml ∧ StatsUnlessLatestPoint getPopupHtml :=
  ⟨rfl, by decide,
    not_statsUnlessLatestPoint_of_passes _ MapViewModel.getPopupHtml_passes_tests,
    fun ⟨f, hp, hc⟩ => not_statsUnlessLatestPoint_of_passes f hp hc⟩

/-- C12, as amended: for every current track and every index of a point of
it, the fragment of `getPopupHtml(index)` holds the ordinal `index + 1`, the
length of the track, and the statistics panel exactly when `showLatest` is
false, whether or not the point is the most recent one; this passes the two
tests of the panel. -/
theorem getPopupHtml_stats_iff_not_showLatest (vm : MapViewModel) (track : Track)
    (pointIndex : ℕ) (htrack : vm.state.currentTrack = some track)
    (hindex : pointIndex < track.positions.length) :
    MapViewModel.getPopupHtml vm pointIndex =
      some { ordinal := pointIndex + 1, total := track.positions.length,
             stats := !vm.state.showLatest } ∧
    PassesPopupTests MapViewModel.getPopupHtml := by
  refine ⟨?_, MapViewModel.getPopupHtml_passes_tests⟩
  simp only [MapViewModel.getPopupHtml, htrack, if_pos hindex]

/-- The amended C12 at the most recent point of a track of two positions:
the panel is left out with `showLatest = true` and is there with
`showLatest = false`. -/
theorem getPopupHtml_stats_iff_not_showLatest_witness :
    MapViewModel.getPopupHtml
      { MapViewModel.mock with
        state := { currentTrack := some testTrack2, showLatest := true } } 1 =
      some { ordinal := 2, total := 2, stats := false } ∧
    MapViewModel.getPopupHtml
      { MapViewModel.mock with
        state := { currentTrack := some testTrack2, showLatest := false } } 1 =
      some { ordinal := 2, total := 2, stats := true } :=
  ⟨(getPopupHtml_stats_iff_not_showLatest
      { MapViewModel.mock with
        state := { currentTrack := some testTrack2, showLatest := true } }
      testTrack2 1 rfl (by decide)).1,
    (getPopupHtml_stats_iff_not_showLatest
      { MapViewModel.mock with
        state := { currentTrack := some testTrack2, showLatest := false } }
      testTrack2 1 rfl (by decide)).1⟩

theorem not_revertsToPriorMapApi_of_passes
    (loadMapAPI : MapViewModel → String → String → Bool → Option Bounds → LoadOutcome)
    (h : PassesFailedLoadTest loadMapAPI) : ¬ RevertsToPriorMapApi loadMapAPI := by
  intro hc
  have h1 := (h none).2.2.2
  have h2 := (hc { MapViewModel.mock with api := none } "mockApi" "gmaps" none).2.2.2
  rw [h1] at h2
  exact absurd h2 (by decide)

/-- C13, counterexample: in the test of a failing load `config.mapApi` is
`mockApi` before the request for `gmaps` and `openlayers` after it, not the
value it had before; no implementation that passes this test leaves in
`config.mapApi` the value it had before every failing request. -/
theorem loadMapAPI_failure_sets_default_backend :
    (MapViewModel.loadMapAPI { MapViewModel.mock with api := none } "mockApi" "gmaps" false
      none).mapApi = "openlayers" ∧
    (MapViewModel.loadMapAPI { MapViewModel.mock with api := none } "mockApi" "gmaps" false
      none).mapApi ≠ "mockApi" ∧
    ¬ RevertsToPriorMapApi MapViewModel.loadMapAPI ∧
    ¬ ∃ loadMapAPI : MapViewModel → String → String → Bool → Option Bounds → LoadOutcome,
      PassesFailedLoadTest loadMapAPI ∧ RevertsToPriorMapApi loadMapAPI :=
  ⟨rfl, by decide,
    not_revertsToPriorMapApi_of_passes _ MapViewModel.loadMapAPI_passes_test,
    fun ⟨f, hp, hc⟩ => not_revertsToPriorMapApi_of_passes f hp hc⟩

/-- C13, as amended: for every backend name whose adapter `init()` fails,
`loadMapAPI(name)` reports the error, never invokes `onReady`, leaves the
view-model and its active adapter as they were, and sets `config.mapApi` to
the name of the active adapter, the last backend that loaded, or to
`openlayers` when there is none, whatever the value before the request;
with no active adapter or with `openlayers` active, a failing request for
`gmaps` leaves `openlayers`. This passes the test of a failing load. -/
theorem loadMapAPI_failure_falls_back (vm : MapViewModel) (mapApi name : String)
    (bounds : Option Bounds) :
    LoadEffect.error name ∈ (vm.loadMapAPI mapApi name false bounds).effects ∧
    LoadEffect.onReady ∉ (vm.loadMapAPI mapApi name false bounds).effects ∧
    (vm.loadMapAPI mapApi name false bounds).vm = vm ∧
    (vm.loadMapAPI mapApi name false bounds).mapApi = vm.api.getD "openlayers" ∧
    (MapViewModel.loadMapAPI { vm with api := none } mapApi "gmaps" false bounds).mapApi =
      "openlayers" ∧
    (MapViewModel.loadMapAPI { vm with api := some "openlayers" } mapApi "gmaps" false
      bounds).mapApi = "openlayers" ∧
    PassesFailedLoadTest MapViewModel.loadMapAPI := by
  refine ⟨?_, ?_, rfl, rfl, rfl, rfl, MapViewModel.loadMapAPI_passes_test⟩ <;>
    simp [MapViewModel.loadMapAPI]

end ULogger
